import Mathlib

/-!
Verification of the `schema` migration library.

The development shallowly embeds two layers of the package:

* the SQLite polling-lock dialect (`sqlite.go`): `Lock`, `Unlock` and the
  `addTable` template substitution, modelled over explicit execution traces
  and a discrete clock measured in seconds;
* the Migrator orchestration (`Apply`, `computeMigrationPlan`, `run`,
  `transaction`, the sticky error latch).  That file is not part of the
  sources at hand (only its tests are), so those definitions are modelled
  from the design spec, as marked in their doc comments.

Machine integers (Go `int64` nanosecond timestamps, durations) are modelled
as `Nat` seconds; overflow never matters for the stated properties.
-/

/-- Errors produced by the engine.  Each constructor corresponds to one
entry of the error taxonomy (nil database handle, latched prior failure,
failed transaction begin, tracking-table query failure, script failure,
panic-derived failure, lock failures, the distinct SQLite lock timeout,
and driver errors of sqlite or of any other dynamic type). -/
inductive GoError where
  | nilDB
  | priorFailure
  | beginFailed
  | queryFailed (msg : String)
  | scriptFailed (msg : String)
  | panicked (msg : String)
  | sqliteError (code : Nat) (msg : String)
  | sqliteLockTimeout
  | otherError (msg : String)
deriving DecidableEq, Repr

/-- The text returned by the Go `Error()` method of each error value. -/
def GoError.message : GoError → String
  | .nilDB => "the db pointer is nil"
  | .priorFailure => "previous error"
  | .beginFailed => "begin failed"
  | .queryFailed msg => msg
  | .scriptFailed msg => msg
  | .panicked msg => msg
  | .sqliteError _ msg => msg
  | .sqliteLockTimeout => "sqlite: timeout requesting lock"
  | .otherError msg => msg

/-- Go `var ErrSQLiteLockTimeout = errors.New("sqlite: timeout requesting lock")`. -/
def ErrSQLiteLockTimeout : GoError := .sqliteLockTimeout

/- ### SQLite dialect (`sqlite.go`) -/

/-- Go `const lockMagicNum = 794774819`. -/
def lockMagicNum : Nat := 794774819

/-- Go `const defaultSQLiteLockTable = "schema_lock"`. -/
def defaultSQLiteLockTable : String := "schema_lock"

/-- Value of `sqlite3.ErrConstraint`: the primary sqlite error code for constraint
violations (numeric value 19 in the go-sqlite3 bindings). -/
def sqlite3ErrConstraint : Nat := 19

/-- The `sqliteDialect` struct: lock timeout (seconds, `0` meaning unset),
lease-table name (`""` meaning unset), and the locally recorded owner
token `code` (the nanosecond timestamp taken at insert time, modelled on
the same discrete clock as everything else). -/
structure sqliteDialect where
  LockDuration : Nat
  LockTable : String
  code : Nat
deriving DecidableEq, Repr

/-- Character-level core of Go `strings.Replace(s, pat, rep, 1)`: scan for
the first occurrence of `pat` and splice `rep` in its place. -/
def goReplace1 : List Char → List Char → List Char → List Char
  | [], _, _ => []
  | c :: cs, pat, rep =>
    if pat.isPrefixOf (c :: cs) then rep ++ (c :: cs).drop pat.length
    else c :: goReplace1 cs pat rep

/-- Go `strings.Replace(s, pat, rep, 1)`: replace the first occurrence of
`pat` in `s` by `rep`. -/
def replaceFirst (s pat rep : String) : String := ⟨goReplace1 s.data pat.data rep.data⟩

/-- Check (used by the proofs only) that `pat` does not occur earlier than
the designated split point of `pre ++ pat ++ suf`. -/
def cleanPrefix (pre pat suf : List Char) : Bool :=
  (List.range pre.length).all (fun i => !(pat.isPrefixOf ((pre ++ pat ++ suf).drop i)))

/-- Method `addTable` substitutes the lease-table name for the `\x7btable\x7d`
placeholder, falling back to `defaultSQLiteLockTable` when `LockTable`
is empty. -/
def sqliteDialect.addTable (s : sqliteDialect) (sql : String) : String :=
  let table := if s.LockTable = "" then defaultSQLiteLockTable else s.LockTable
  replaceFirst sql "\x7btable\x7d" table

/-- The lease-table creation template passed to `addTable` in `Lock`. -/
def createLockTableSQL : String :=
  "\n\t\tCREATE TABLE IF NOT EXISTS \x7btable\x7d (\n\t\t\tid INTEGER PRIMARY KEY,\n\t\t\tcode INTEGER,\n\t\t\texpiration DATETIME NOT NULL)"

/-- The expired-lease sweep template passed to `addTable` in `Lock`. -/
def deleteExpiredSQL : String :=
  "DELETE FROM \x7btable\x7d WHERE datetime(expiration) < datetime(\x27now\x27)"

/-- The lease-row insert template passed to `addTable` in `Lock`. -/
def insertLockSQL : String :=
  "INSERT INTO \x7btable\x7d (id, code, expiration) VALUES(?, ?, ?)"

/-- The lease-row delete template passed to `addTable` in `Unlock`. -/
def unlockSQL : String :=
  "DELETE FROM \x7btable\x7d WHERE id=? AND code=?;"

/-- The result of one `db.Exec` call as seen by the Go type switch in
`Lock`: a nil error, a `sqlite3.Error` carrying a numeric code, or an
error value of any other dynamic type. -/
inductive ExecResult where
  | ok
  | sqliteErr (code : Nat) (msg : String)
  | otherErr (msg : String)
deriving DecidableEq, Repr

/-- One row of the lease table `\x7bid, code, expiration\x7d`. -/
structure LeaseRow where
  id : Nat
  code : Nat
  expiration : Nat
deriving DecidableEq, Repr

/-- What `Lock` leaves behind on the dialect and in the lease table: the
(possibly updated) owner token `code`, and the lease row this call
inserted, when its insert succeeded. -/
structure LockAttemptState where
  code : Nat
  ownRow : Option LeaseRow
deriving DecidableEq, Repr

/-- Go `time.Sleep(time.Second)` between attempts, in seconds. -/
def sqliteLockRetryInterval : Nat := 1

/-- Local `timeoutDuration` as computed at the top of `Lock`: `LockDuration`,
or the constant `defaultDuration = 30 * time.Second` when unset. -/
def sqliteDialect.timeoutDuration (s : sqliteDialect) : Nat :=
  if s.LockDuration = 0 then 30 else s.LockDuration

/-- The `for time.Now().Before(timeout)` loop of `Lock`.  `env k` gives the
results of iteration `k`'s two `db.Exec` calls (expired-lease sweep, then
lease insert); `now` is the current time in seconds.  A failing sweep is
returned as is; an insert failing with a sqlite constraint violation
sleeps one retry interval and loops; an insert failing with any other
sqlite code is returned; any other insert result falls into the Go
`default` branch, which records the owner token and returns nil.
Leaving the loop yields `ErrSQLiteLockTimeout`. -/
def sqliteLockLoop (s : sqliteDialect) (dur timeout : Nat)
    (env : Nat → ExecResult × ExecResult) (now k : Nat) :
    Option GoError × LockAttemptState :=
  if now < timeout then
    match env k with
    | (.sqliteErr c m, _) => (some (.sqliteError c m), ⟨s.code, none⟩)
    | (.otherErr m, _) => (some (.otherError m), ⟨s.code, none⟩)
    | (.ok, ins) =>
      match ins with
      | .sqliteErr c m =>
        if c = sqlite3ErrConstraint then
          sqliteLockLoop s dur timeout env (now + sqliteLockRetryInterval) (k + 1)
        else (some (.sqliteError c m), ⟨s.code, none⟩)
      | .ok => (none, ⟨now, some ⟨lockMagicNum, now, now + dur⟩⟩)
      | .otherErr _ => (none, ⟨now, none⟩)
  else (some ErrSQLiteLockTimeout, ⟨s.code, none⟩)
termination_by timeout - now
decreasing_by simp [sqliteLockRetryInterval]; omega

/-- Method `Lock`: create the lease table if absent (result `createRes`), compute
the timeout deadline, then run the acquisition loop starting at `start`. -/
def sqliteDialect.Lock (s : sqliteDialect) (start : Nat) (createRes : ExecResult)
    (env : Nat → ExecResult × ExecResult) : Option GoError × LockAttemptState :=
  match createRes with
  | .sqliteErr c m => (some (.sqliteError c m), ⟨s.code, none⟩)
  | .otherErr m => (some (.otherError m), ⟨s.code, none⟩)
  | .ok => sqliteLockLoop s s.timeoutDuration (start + s.timeoutDuration) env start 0

/-- Method `Unlock`: `DELETE FROM \x7btable\x7d WHERE id=? AND code=?` with the
sentinel id and the locally recorded owner token, applied to the lease
table contents. -/
def sqliteDialect.Unlock (s : sqliteDialect) (rows : List LeaseRow) : List LeaseRow :=
  rows.filter (fun r => !(r.id = lockMagicNum && r.code = s.code))

/- ### Migration engine (Migrator).

The orchestration file of the package is not among the sources at hand
(only its test suite is), so the definitions below are modelled from the
design spec, section by section. -/

/-- Modelled from the spec: a `Migration` is the missing package's unit of
schema change, `\x7bID: string, Script: string\x7d`. -/
structure Migration where
  ID : String
  Script : String
deriving DecidableEq, Repr

/-- Modelled from the spec: an `AppliedMigration` is the missing package's
tracking-table row, `\x7bID, Checksum, ExecutionTimeMillis, AppliedAt\x7d`. -/
structure AppliedMigration where
  ID : String
  Checksum : String
  ExecutionTimeMillis : Nat
  AppliedAt : Nat
deriving DecidableEq, Repr

/-- Modelled from the spec: the `Migrator` holds a tracking-table name and
the sticky error latch `err` (the dialect choice is kept outside the
state, in the operations' parameters). -/
structure Migrator where
  tableName : String
  err : Option GoError
deriving DecidableEq, Repr

/-- The backing store as one Migrator run sees it: tracking-table rows in
insertion order, the abstract user-schema state `σ` mutated by scripts,
whether the shared lock resource is held, the SQL statements issued so
far, and the migration scripts executed so far. -/
structure World (σ : Type) where
  tracking : List AppliedMigration
  schema : σ
  locked : Bool
  sqlLog : List String
  scriptsRun : List String
deriving DecidableEq, Repr

/-- A Go panic payload: a string value, or an error value. -/
inductive PanicValue where
  | str (s : String)
  | errVal (e : GoError)
deriving DecidableEq, Repr

/-- The string form of a panic payload (`fmt.Sprint` on a string, the
`Error()` text on an error value). -/
def PanicValue.message : PanicValue → String
  | .str s => s
  | .errVal e => e.message

/-- Modelled from the spec: the recoverable-fault boundary converts an
abnormal termination into an error carrying the payload's message. -/
def recoverToError (p : PanicValue) : GoError := .panicked p.message

/-- The three ways the driver-level execution of one migration script can
end: a new schema state, a driver error message, or a panic. -/
inductive ScriptOutcome (σ : Type) where
  | ok (s : σ)
  | fail (msg : String)
  | panicked (p : PanicValue)
deriving DecidableEq, Repr

/-- The engine's external collaborators, abstracted: the driver executing
script text against a schema state, the checksum function, and the
wall clock sampled at the `k`-th migration of a run (duration and
commit timestamp). -/
structure ExecEnv (σ : Type) where
  runScript : σ → String → ScriptOutcome σ
  checksum : String → String
  execMillis : Nat → Nat
  clock : Nat → Nat

/-- Modelled from the spec: ordering migrations by lexical comparison of
their IDs. -/
def migLE (a b : Migration) : Prop := a.ID ≤ b.ID

instance : DecidableRel migLE := fun a b => inferInstanceAs (Decidable (a.ID ≤ b.ID))

instance : IsTotal Migration migLE := ⟨fun a b => le_total a.ID b.ID⟩

instance : IsTrans Migration migLE := ⟨fun _ _ _ h1 h2 => le_trans h1 h2⟩

/-- Modelled from the spec: sort the candidate migrations by ID using
lexical string ordering. -/
def sortMigrations (ms : List Migration) : List Migration := List.insertionSort migLE ms

/-- Modelled from the spec: the pure core of plan computation — sort the
candidates by ID, drop those whose ID already appears in the applied
set, return the rest in sorted order. -/
def computePlan (applied : List String) (ms : List Migration) : List Migration :=
  (sortMigrations ms).filter (fun mg => !applied.contains mg.ID)

/-- Modelled from the spec: `lock` acquires the dialect's lock unless the
latch is already set; `res` is the backing store's answer.  On failure
the error is latched and the lock is not held. -/
def Migrator.lock {σ : Type} (m : Migrator) (w : World σ) (res : Option GoError) :
    Migrator × World σ :=
  if m.err.isSome then (m, w)
  else
    let w1 := { w with sqlLog := w.sqlLog ++ ["SELECT pg_advisory_lock"] }
    match res with
    | none => (m, { w1 with locked := true })
    | some e => ({ m with err := some e }, w1)

/-- Modelled from the spec: `unlock` releases the dialect's lock unless the
latch is already set. -/
def Migrator.unlock {σ : Type} (m : Migrator) (w : World σ) (res : Option GoError) :
    Migrator × World σ :=
  if m.err.isSome then (m, w)
  else
    let w1 := { w with sqlLog := w.sqlLog ++ ["SELECT pg_advisory_unlock"], locked := false }
    match res with
    | none => (m, w1)
    | some e => ({ m with err := some e }, w1)

/-- Modelled from the spec: `createMigrationsTable` issues the idempotent
create of the tracking table unless the latch is already set, latching
any failure. -/
def Migrator.createMigrationsTable {σ : Type} (m : Migrator) (w : World σ)
    (res : Option GoError) : Migrator × World σ :=
  if m.err.isSome then (m, w)
  else
    let w1 := { w with sqlLog := w.sqlLog ++ ["CREATE TABLE IF NOT EXISTS " ++ m.tableName] }
    match res with
    | none => (m, w1)
    | some e => ({ m with err := some e }, w1)

/-- Modelled from the spec: `computeMigrationPlan` returns the prior error
untouched when the latch is set; otherwise it queries the tracking table
(`queryFail` is the backing store's answer) and computes the plan from
the recorded IDs.  It never mutates the latch. -/
def Migrator.computeMigrationPlan {σ : Type} (m : Migrator) (w : World σ)
    (queryFail : Option String) (ms : List Migration) :
    Except GoError (List Migration) × World σ :=
  if h : m.err.isSome then (.error (m.err.get h), w)
  else
    let w1 := { w with sqlLog := w.sqlLog ++
      ["SELECT id, checksum, execution_time_in_millis, applied_at FROM " ++ m.tableName] }
    match queryFail with
    | some msg => (.error (.queryFailed msg), w1)
    | none => (.ok (computePlan (w.tracking.map AppliedMigration.ID) ms), w1)

/-- The tracking row committed for the `k`-th migration of a run. -/
def mkRow {σ : Type} (env : ExecEnv σ) (k : Nat) (mg : Migration) : AppliedMigration :=
  { ID := mg.ID, Checksum := env.checksum mg.Script,
    ExecutionTimeMillis := env.execMillis k, AppliedAt := env.clock k }

/-- Modelled from the spec: the pending-migration execution loop.  For each
migration in plan order: execute the script inside a transaction; on
success commit it together with its tracking row; on a driver failure or
a recovered panic, roll back (tracking row and schema effects are not
kept) and stop with the error. -/
def runMigrations {σ : Type} (env : ExecEnv σ) :
    Nat → List Migration → World σ → Option GoError × World σ
  | _, [], w => (none, w)
  | k, mg :: rest, w =>
    let w1 := { w with sqlLog := w.sqlLog ++ [mg.Script],
                       scriptsRun := w.scriptsRun ++ [mg.Script] }
    match env.runScript w.schema mg.Script with
    | .ok s2 =>
      runMigrations env (k + 1) rest
        { w1 with schema := s2,
                  tracking := w1.tracking ++ [mkRow env k mg],
                  sqlLog := w1.sqlLog ++ ["INSERT INTO tracking"] }
    | .fail msg => (some (.scriptFailed msg), w1)
    | .panicked p => (some (recoverToError p), w1)

/-- Modelled from the spec: `run` short-circuits on the latch, fails on a
nil database handle, computes the plan, executes it, and latches the
first failure. -/
def Migrator.run {σ : Type} (m : Migrator) (env : ExecEnv σ) (hasDB : Bool)
    (queryFail : Option String) (ms : List Migration) (w : World σ) :
    Migrator × World σ :=
  if m.err.isSome then (m, w)
  else if hasDB = false then ({ m with err := some .nilDB }, w)
  else
    match m.computeMigrationPlan w queryFail ms with
    | (.error e, w1) => ({ m with err := some e }, w1)
    | (.ok plan, w1) =>
      let r := runMigrations env 0 plan w1
      ({ m with err := r.1 }, r.2)

/-- Modelled from the spec: the transactional step around one migration
body, with the panic-recovery boundary.  The body's end is `body`: a
normal return (nil or an error), or a panic with some payload.  A panic
is converted by `recoverToError` and latched like any other failure. -/
def Migrator.transaction (m : Migrator) (hasDB beginOK : Bool)
    (body : ScriptOutcome Unit) : Migrator :=
  if m.err.isSome then m
  else if hasDB = false then { m with err := some .nilDB }
  else if beginOK = false then { m with err := some .beginFailed }
  else
    match body with
    | .ok _ => m
    | .fail msg => { m with err := some (.scriptFailed msg) }
    | .panicked p => { m with err := some (recoverToError p) }

/-- Modelled from the spec: `Apply` — short-circuit on the latch; fail on a
nil handle; acquire the lock; ensure the tracking table; compute and run
the plan; always release the lock on the way out except when it was
never acquired.  The first failure is latched and is the call's result
(`(Apply ...).1.err`). -/
def Migrator.Apply {σ : Type} (m : Migrator) (env : ExecEnv σ) (hasDB : Bool)
    (lockRes createRes : Option GoError) (queryFail : Option String)
    (ms : List Migration) (w : World σ) : Migrator × World σ :=
  if m.err.isSome then (m, w)
  else if hasDB = false then ({ m with err := some .nilDB }, w)
  else
    let r1 := m.lock w lockRes
    let r2 := r1.1.createMigrationsTable r1.2 createRes
    let r3 := r2.1.run env true queryFail ms r2.2
    if lockRes = none then
      (r3.1, { r3.2 with locked := false,
                         sqlLog := r3.2.sqlLog ++ ["SELECT pg_advisory_unlock"] })
    else r3

/-- Strict lexical ordering of migrations by ID, used to state strict
ascending execution order. -/
def migLT (a b : Migration) : Prop := a.ID < b.ID

instance : IsAntisymm Migration migLT :=
  ⟨fun a _ h1 h2 => absurd (lt_trans h1 h2) (lt_irrefl a.ID)⟩

instance : IsTrans Migration migLT := ⟨fun _ _ _ h1 h2 => lt_trans h1 h2⟩

/-- Characterization helper: the tracking rows one pass of the execution
loop appends — one row per migration of the longest fully successful
prefix of the plan, at consecutive clock indices. -/
def newRows {σ : Type} (env : ExecEnv σ) : Nat → List Migration → σ → List AppliedMigration
  | _, [], _ => []
  | k, mg :: rest, s =>
    match env.runScript s mg.Script with
    | .ok s2 => mkRow env k mg :: newRows env (k + 1) rest s2
    | .fail _ => []
    | .panicked _ => []

/-- Characterization helper: the scripts one pass of the execution loop
attempts (the successful prefix, plus the first failing script when
there is one). -/
def newScripts {σ : Type} (env : ExecEnv σ) : Nat → List Migration → σ → List String
  | _, [], _ => []
  | k, mg :: rest, s =>
    match env.runScript s mg.Script with
    | .ok s2 => mg.Script :: newScripts env (k + 1) rest s2
    | .fail _ => [mg.Script]
    | .panicked _ => [mg.Script]

/-- Characterization helper: the schema state after one pass of the
execution loop (effects of a failing script are rolled back). -/
def newSchema {σ : Type} (env : ExecEnv σ) : Nat → List Migration → σ → σ
  | _, [], s => s
  | k, mg :: rest, s =>
    match env.runScript s mg.Script with
    | .ok s2 => newSchema env (k + 1) rest s2
    | .fail _ => s
    | .panicked _ => s

/-- Characterization helper: the SQL statements one pass of the execution
loop issues. -/
def newLog {σ : Type} (env : ExecEnv σ) : Nat → List Migration → σ → List String
  | _, [], _ => []
  | k, mg :: rest, s =>
    match env.runScript s mg.Script with
    | .ok s2 => mg.Script :: "INSERT INTO tracking" :: newLog env (k + 1) rest s2
    | .fail _ => [mg.Script]
    | .panicked _ => [mg.Script]

/-- Characterization helper: the error one pass of the execution loop
stops with, if any. -/
def runErr {σ : Type} (env : ExecEnv σ) : Nat → List Migration → σ → Option GoError
  | _, [], _ => none
  | k, mg :: rest, s =>
    match env.runScript s mg.Script with
    | .ok s2 => runErr env (k + 1) rest s2
    | .fail msg => some (.scriptFailed msg)
    | .panicked p => some (recoverToError p)

/- ### Concurrent-apply model (spec section 5 and the simultaneous-apply
test scenario): N callers, each with a fresh Migrator, share one tracking
table, one lock resource and one data table. -/

/-- The user schema touched by the shared migration set: whether the data
table exists, and how many rows it holds. -/
structure PgState where
  dataTableExists : Bool
  dataRows : Nat
deriving DecidableEq, Repr

/-- The delay statement of the shared migration set. -/
def sleepScript : String := "SELECT pg_sleep(1)"

/-- The data-table creation statement of the shared migration set. -/
def createDataTableScript : String :=
  "CREATE TABLE data (id INTEGER GENERATED BY DEFAULT AS IDENTITY PRIMARY KEY, created_at TIMESTAMP WITH TIME ZONE NOT NULL)"

/-- The seed-insert statement of the shared migration set. -/
def seedInsertScript : String := "INSERT INTO data (created_at) VALUES (NOW())"

/-- The shared migration set of the scenario: a delay, the data-table
creation, and the seed insert, with date-prefixed IDs in lexical order. -/
def sharedMigrations : List Migration :=
  [ ⟨"2020-05-01 Sleep", sleepScript⟩,
    ⟨"2020-05-02 Create Data Table", createDataTableScript⟩,
    ⟨"2020-05-03 Add Initial Record", seedInsertScript⟩ ]

/-- The applied IDs of the shared set, in lexical order. -/
def sharedIDs : List String :=
  ["2020-05-01 Sleep", "2020-05-02 Create Data Table", "2020-05-03 Add Initial Record"]

/-- Modelled from the spec: the backing database's semantics for the three
scripts of the scenario (the delay has no visible effect, creation marks
the table as existing, the seed insert adds one row). -/
def pgRunScript (s : PgState) (scr : String) : ScriptOutcome PgState :=
  if scr = sleepScript then .ok s
  else if scr = createDataTableScript then .ok { s with dataTableExists := true }
  else if scr = seedInsertScript then .ok { s with dataRows := s.dataRows + 1 }
  else .fail "syntax error"

/-- The execution environment of the scenario. -/
def pgEnv : ExecEnv PgState :=
  { runScript := pgRunScript, checksum := fun scr => "md5:" ++ scr,
    execMillis := fun _ => 0, clock := fun k => k }

/-- One caller's progress through its `Apply` call: `0` before the call,
`1` once the shared lock is acquired, `2` once the pending plan has been
read from the tracking table, `3` once the plan has been executed, `4`
once the lock is released, `5` once the follow-up data-table insert is
done. -/
structure AgentState where
  phase : Nat
  plan : List Migration
deriving DecidableEq, Repr

/-- The global state of the scenario: each caller's progress, the holder of
the shared lock resource, and the shared backing store. -/
structure Sys (N : Nat) where
  agents : Fin N → AgentState
  lockOwner : Option (Fin N)
  world : World PgState

/-- The initial shared store: empty tracking table, no data table, lock
free. -/
def initWorld : World PgState := ⟨[], ⟨false, 0⟩, false, [], []⟩

/-- All callers ready to start, lock free, store empty. -/
def initSys (N : Nat) : Sys N := ⟨fun _ => ⟨0, []⟩, none, initWorld⟩

/-- Modelled from the spec: one atomic step of caller `i`.  Lock
acquisition blocks (is disabled) while another caller holds the lock;
the plan read and the plan execution are separate steps inside the
locked region, so the race the lock must prevent is representable;
the follow-up insert happens outside the lock. -/
def sysStep {N : Nat} (s : Sys N) (i : Fin N) : Option (Sys N) :=
  if (s.agents i).phase = 0 then
    match s.lockOwner with
    | none => some { s with lockOwner := some i,
                            agents := Function.update s.agents i ⟨1, (s.agents i).plan⟩ }
    | some _ => none
  else if (s.agents i).phase = 1 then
    let p := computePlan (s.world.tracking.map AppliedMigration.ID) sharedMigrations
    some { s with agents := Function.update s.agents i ⟨2, p⟩ }
  else if (s.agents i).phase = 2 then
    some { s with world := (runMigrations pgEnv 0 (s.agents i).plan s.world).2,
                  agents := Function.update s.agents i ⟨3, (s.agents i).plan⟩ }
  else if (s.agents i).phase = 3 then
    some { s with lockOwner := none,
                  agents := Function.update s.agents i ⟨4, (s.agents i).plan⟩ }
  else if (s.agents i).phase = 4 then
    some { s with world := { s.world with schema :=
                    { s.world.schema with dataRows := s.world.schema.dataRows + 1 } },
                  agents := Function.update s.agents i ⟨5, (s.agents i).plan⟩ }
  else none

/-- Run a schedule: at each entry the named caller takes its next step; a
schedule naming a blocked or finished caller is rejected. -/
def execSched {N : Nat} : Sys N → List (Fin N) → Option (Sys N)
  | s, [] => some s
  | s, i :: rest =>
    match sysStep s i with
    | none => none
    | some s2 => execSched s2 rest

/-- A caller is in the locked region (between acquiring and releasing the
shared lock, which contains the whole pending-migration execution
loop). -/
def inCrit (a : AgentState) : Prop := a.phase = 1 ∨ a.phase = 2 ∨ a.phase = 3

instance : DecidablePred inCrit := fun a => inferInstanceAs (Decidable (a.phase = 1 ∨ a.phase = 2 ∨ a.phase = 3))

/-- Number of callers that have completed their follow-up insert. -/
def doneCountF {N : Nat} (f : Fin N → AgentState) : Nat :=
  (Finset.univ.filter (fun i => (f i).phase = 5)).card

/-- The inductive invariant of the scenario: the lock owner is the only
caller in the locked region; a caller holding a freshly read plan read it
from the current tracking table; the tracking table is all-or-nothing
over the shared set; any caller past execution has seen the full set
committed; and the data-table row count is one per completed follow-up
insert, plus one once the seed migration committed. -/
def SysInv {N : Nat} (s : Sys N) : Prop :=
  (∀ i, inCrit (s.agents i) → s.lockOwner = some i)
  ∧ (∀ i, (s.agents i).phase = 2 →
      (s.agents i).plan = computePlan (s.world.tracking.map AppliedMigration.ID) sharedMigrations)
  ∧ (s.world.tracking.map AppliedMigration.ID = [] ∨
      s.world.tracking.map AppliedMigration.ID = sharedIDs)
  ∧ (∀ i, 3 ≤ (s.agents i).phase → s.world.tracking.map AppliedMigration.ID = sharedIDs)
  ∧ s.world.schema.dataRows =
      (if s.world.tracking.map AppliedMigration.ID = sharedIDs then 1 else 0)
        + doneCountF s.agents

/-- The shared store after the single-caller scenario: one full run of the
shared set, then the follow-up insert. -/
def c9FinalWorld : World PgState :=
  { (runMigrations pgEnv 0 sharedMigrations initWorld).2 with
    schema := { (runMigrations pgEnv 0 sharedMigrations initWorld).2.schema with
      dataRows := (runMigrations pgEnv 0 sharedMigrations initWorld).2.schema.dataRows + 1 } }

/-- The final state of the single-caller scenario. -/
def c9FinalSys : Sys 1 := ⟨fun _ => ⟨5, sharedMigrations⟩, none, c9FinalWorld⟩

/- ### Theorems: SQLite dialect -/

theorem sqliteLockLoop_notime (s : sqliteDialect) (dur timeout : Nat)
    (env : Nat → ExecResult × ExecResult) (now k : Nat) (h : ¬ now < timeout) :
    sqliteLockLoop s dur timeout env now k = (some ErrSQLiteLockTimeout, ⟨s.code, none⟩) := by
  rw [sqliteLockLoop, if_neg h]

theorem sqliteLockLoop_sweep_sqlite (s : sqliteDialect) (dur timeout : Nat)
    (env : Nat → ExecResult × ExecResult) (now k : Nat) (c : Nat) (m : String)
    (ins : ExecResult) (h : now < timeout) (hk : env k = (.sqliteErr c m, ins)) :
    sqliteLockLoop s dur timeout env now k = (some (.sqliteError c m), ⟨s.code, none⟩) := by
  rw [sqliteLockLoop, if_pos h, hk]

theorem sqliteLockLoop_insert_constraint (s : sqliteDialect) (dur timeout : Nat)
    (env : Nat → ExecResult × ExecResult) (now k : Nat) (m : String)
    (h : now < timeout) (hk : env k = (.ok, .sqliteErr sqlite3ErrConstraint m)) :
    sqliteLockLoop s dur timeout env now k =
      sqliteLockLoop s dur timeout env (now + sqliteLockRetryInterval) (k + 1) := by
  rw [sqliteLockLoop, if_pos h, hk]
  simp

theorem sqliteLockLoop_insert_nonconstraint (s : sqliteDialect) (dur timeout : Nat)
    (env : Nat → ExecResult × ExecResult) (now k : Nat) (c : Nat) (m : String)
    (h : now < timeout) (hk : env k = (.ok, .sqliteErr c m)) (hc : c ≠ sqlite3ErrConstraint) :
    sqliteLockLoop s dur timeout env now k = (some (.sqliteError c m), ⟨s.code, none⟩) := by
  rw [sqliteLockLoop, if_pos h, hk]
  simp [hc]

theorem sqliteLockLoop_insert_ok (s : sqliteDialect) (dur timeout : Nat)
    (env : Nat → ExecResult × ExecResult) (now k : Nat)
    (h : now < timeout) (hk : env k = (.ok, .ok)) :
    sqliteLockLoop s dur timeout env now k =
      (none, ⟨now, some ⟨lockMagicNum, now, now + dur⟩⟩) := by
  rw [sqliteLockLoop, if_pos h, hk]

theorem sqliteLockLoop_insert_otherErr (s : sqliteDialect) (dur timeout : Nat)
    (env : Nat → ExecResult × ExecResult) (now k : Nat) (m : String)
    (h : now < timeout) (hk : env k = (.ok, .otherErr m)) :
    sqliteLockLoop s dur timeout env now k = (none, ⟨now, none⟩) := by
  rw [sqliteLockLoop, if_pos h, hk]

theorem sqliteLockLoop_timeout_char (s : sqliteDialect) (dur timeout : Nat)
    (env : Nat → ExecResult × ExecResult) :
    ∀ fuel now k st, timeout - now = fuel →
      sqliteLockLoop s dur timeout env now k = (some ErrSQLiteLockTimeout, st) →
      st = ⟨s.code, none⟩ ∧
      ∀ j, now + j < timeout → ∃ m, env (k + j) = (.ok, .sqliteErr sqlite3ErrConstraint m) := by
  intro fuel
  induction fuel with
  | zero =>
    intro now k st hf h
    rw [sqliteLockLoop_notime s dur timeout env now k (by omega)] at h
    refine ⟨(Prod.mk.injEq _ _ _ _).mp h.symm |>.2.symm ▸ rfl, fun j hj => absurd hj (by omega)⟩
  | succ n ih =>
    intro now k st hf h
    have hnt : now < timeout := by omega
    rcases hk : env k with ⟨del, ins⟩
    cases del with
    | sqliteErr c m =>
      rw [sqliteLockLoop_sweep_sqlite s dur timeout env now k c m ins hnt hk] at h
      simp [ErrSQLiteLockTimeout] at h
    | otherErr m =>
      rw [sqliteLockLoop, if_pos hnt, hk] at h
      simp [ErrSQLiteLockTimeout] at h
    | ok =>
      cases ins with
      | ok =>
        rw [sqliteLockLoop_insert_ok s dur timeout env now k hnt hk] at h
        simp at h
      | otherErr m =>
        rw [sqliteLockLoop, if_pos hnt, hk] at h
        simp at h
      | sqliteErr c m =>
        by_cases hc : c = sqlite3ErrConstraint
        · subst hc
          rw [sqliteLockLoop_insert_constraint s dur timeout env now k m hnt hk] at h
          have hrec := ih (now + sqliteLockRetryInterval) (k + 1) st
            (by simp [sqliteLockRetryInterval]; omega) h
          refine ⟨hrec.1, fun j hj => ?_⟩
          cases j with
          | zero => exact ⟨m, by simpa using hk⟩
          | succ j2 =>
            have := hrec.2 j2 (by simp [sqliteLockRetryInterval]; omega)
            have hidx : k + 1 + j2 = k + (j2 + 1) := by omega
            rwa [hidx] at this
        · rw [sqliteLockLoop, if_pos hnt, hk] at h
          simp [hc, ErrSQLiteLockTimeout] at h

theorem sqliteLockLoop_ownRow_char (s : sqliteDialect) (dur timeout : Nat)
    (env : Nat → ExecResult × ExecResult) :
    ∀ fuel now k res st r, timeout - now = fuel →
      sqliteLockLoop s dur timeout env now k = (res, st) →
      st.ownRow = some r →
      res = none ∧ r.id = lockMagicNum ∧ r.code = st.code ∧
        r.expiration = r.code + dur ∧ now ≤ r.code := by
  intro fuel
  induction fuel with
  | zero =>
    intro now k res st r hf h hr
    rw [sqliteLockLoop_notime s dur timeout env now k (by omega)] at h
    obtain ⟨h1, h2⟩ := Prod.mk.injEq _ _ _ _ |>.mp h
    subst h2
    simp at hr
  | succ n ih =>
    intro now k res st r hf h hr
    have hnt : now < timeout := by omega
    rcases hk : env k with ⟨del, ins⟩
    cases del with
    | sqliteErr c m =>
      rw [sqliteLockLoop_sweep_sqlite s dur timeout env now k c m ins hnt hk] at h
      obtain ⟨h1, h2⟩ := Prod.mk.injEq _ _ _ _ |>.mp h
      subst h2; simp at hr
    | otherErr m =>
      rw [sqliteLockLoop, if_pos hnt, hk] at h
      obtain ⟨h1, h2⟩ := Prod.mk.injEq _ _ _ _ |>.mp h
      subst h2; simp at hr
    | ok =>
      cases ins with
      | ok =>
        rw [sqliteLockLoop_insert_ok s dur timeout env now k hnt hk] at h
        obtain ⟨h1, h2⟩ := Prod.mk.injEq _ _ _ _ |>.mp h
        subst h2
        simp only [Option.some.injEq] at hr
        subst hr
        exact ⟨h1.symm, rfl, rfl, rfl, le_refl _⟩
      | otherErr m =>
        rw [sqliteLockLoop, if_pos hnt, hk] at h
        obtain ⟨h1, h2⟩ := Prod.mk.injEq _ _ _ _ |>.mp h
        subst h2; simp at hr
      | sqliteErr c m =>
        by_cases hc : c = sqlite3ErrConstraint
        · subst hc
          rw [sqliteLockLoop_insert_constraint s dur timeout env now k m hnt hk] at h
          have hrec := ih (now + sqliteLockRetryInterval) (k + 1) res st r
            (by simp [sqliteLockRetryInterval]; omega) h hr
          exact ⟨hrec.1, hrec.2.1, hrec.2.2.1, hrec.2.2.2.1, by
            have := hrec.2.2.2.2; simp [sqliteLockRetryInterval] at this; omega⟩
        · rw [sqliteLockLoop, if_pos hnt, hk] at h
          simp only [hc, if_false, reduceCtorEq, if_neg] at h
          obtain ⟨h1, h2⟩ := Prod.mk.injEq _ _ _ _ |>.mp h
          subst h2; simp at hr

theorem goReplace1_split (pat : List Char) (hpat : pat ≠ []) (rep : List Char) :
    ∀ pre suf, cleanPrefix pre pat suf = true →
      goReplace1 (pre ++ pat ++ suf) pat rep = pre ++ rep ++ suf := by
  intro pre
  induction pre with
  | nil =>
    intro suf _
    simp only [List.nil_append]
    obtain ⟨c, cs, hc⟩ : ∃ c cs, pat = c :: cs := by
      cases pat with
      | nil => exact absurd rfl hpat
      | cons c cs => exact ⟨c, cs, rfl⟩
    subst hc
    rw [List.cons_append, goReplace1]
    have hb : (c :: cs).isPrefixOf (c :: (cs ++ suf)) = true := by
      rw [← List.cons_append]
      exact List.isPrefixOf_iff_prefix.mpr (List.prefix_append _ _)
    rw [hb]
    simp only [if_true]
    rw [← List.cons_append, List.drop_left]
  | cons c pre ih =>
    intro suf hclean
    have h0 : pat.isPrefixOf (c :: (pre ++ (pat ++ suf))) = false := by
      have := List.all_eq_true.mp hclean 0 (List.mem_range.mpr (by simp))
      simpa [List.append_assoc] using this
    have htail : cleanPrefix pre pat suf = true := by
      rw [cleanPrefix, List.all_eq_true]
      intro i hi
      have := List.all_eq_true.mp hclean (i + 1)
        (List.mem_range.mpr (by simpa using Nat.succ_lt_succ (List.mem_range.mp hi)))
      simpa using this
    simp only [List.cons_append, List.append_assoc]
    rw [goReplace1, h0]
    simp only [Bool.false_eq_true, if_false]
    have := ih suf htail
    simp only [List.append_assoc] at this
    rw [this]

theorem addTable_template (s : sqliteDialect) (stmt pre suf : String)
    (hsplit : stmt.data = pre.data ++ "\x7btable\x7d".data ++ suf.data)
    (hclean : cleanPrefix pre.data "\x7btable\x7d".data suf.data = true) :
    s.addTable stmt =
      pre ++ (if s.LockTable = "" then defaultSQLiteLockTable else s.LockTable) ++ suf := by
  rw [sqliteDialect.addTable, replaceFirst]
  rw [hsplit, goReplace1_split _ (by decide) _ _ _ hclean]
  apply String.ext
  simp [String.data_append]

/-- C6: when the SQLite `Lock` ends in the distinct timeout error
`ErrSQLiteLockTimeout`, every attempt inside the bounded window (one per
retry interval, so `timeoutDuration` many) had failed with a uniqueness
violation, no lease row was inserted and the owner token is unchanged —
no lock is held; the timeout defaults to 30 seconds when `LockDuration`
is unset, the retry interval is 1 second, and the timeout error is
distinct from every driver error `Lock` can otherwise return. -/
theorem C6_lock_timeout_bound (s : sqliteDialect) (start : Nat)
    (env : Nat → ExecResult × ExecResult) (st : LockAttemptState)
    (h : s.Lock start .ok env = (some ErrSQLiteLockTimeout, st)) :
    st = ⟨s.code, none⟩
    ∧ (∀ j, j < s.timeoutDuration → ∃ m, env j = (.ok, .sqliteErr sqlite3ErrConstraint m))
    ∧ s.timeoutDuration = (if s.LockDuration = 0 then 30 else s.LockDuration)
    ∧ sqliteLockRetryInterval = 1
    ∧ (∀ c m, ErrSQLiteLockTimeout ≠ GoError.sqliteError c m)
    ∧ (∀ m, ErrSQLiteLockTimeout ≠ GoError.otherError m) := by
  simp only [sqliteDialect.Lock] at h
  have hchar := sqliteLockLoop_timeout_char s s.timeoutDuration (start + s.timeoutDuration)
    env ((start + s.timeoutDuration) - start) start 0 st rfl h
  refine ⟨hchar.1, fun j hj => ?_, rfl, rfl,
    fun c m => by simp [ErrSQLiteLockTimeout], fun m => by simp [ErrSQLiteLockTimeout]⟩
  have := hchar.2 j (by omega)
  simpa using this

/-- Witness for C6 at a concrete two-second lock configuration whose every
insert attempt hits a uniqueness violation. -/
theorem C6_lock_timeout_bound_witness :
    (⟨7, none⟩ : LockAttemptState) = ⟨(⟨2, "", 7⟩ : sqliteDialect).code, none⟩ :=
  (C6_lock_timeout_bound ⟨2, "", 7⟩ 0
    (fun _ => (.ok, .sqliteErr sqlite3ErrConstraint "database is locked")) ⟨7, none⟩
    (by simp [sqliteDialect.Lock, sqliteDialect.timeoutDuration, sqliteLockLoop,
      sqlite3ErrConstraint, sqliteLockRetryInterval, ErrSQLiteLockTimeout])).1

/-- C7: `Unlock` deletes exactly the lease rows matching both the sentinel
id and the locally recorded owner token; any row with a different owner
token (or a different id) survives, so a lock acquired by a different
owner is never released. -/
theorem C7_unlock_only_own (s : sqliteDialect) (rows : List LeaseRow) (q : LeaseRow)
    (hq : q ∈ rows) :
    q ∈ s.Unlock rows ↔ ¬(q.id = lockMagicNum ∧ q.code = s.code) := by
  rw [sqliteDialect.Unlock, List.mem_filter]
  simp only [hq, true_and, Bool.not_eq_true', Bool.and_eq_false_iff, decide_eq_false_iff_not]
  tauto

/-- Witness for C7: with owner token 1 recorded, another owner's lease row
(token 2) survives the delete. -/
theorem C7_unlock_only_own_witness :
    (⟨794774819, 2, 10⟩ : LeaseRow) ∈
      sqliteDialect.Unlock ⟨0, "", 1⟩ [⟨794774819, 1, 10⟩, ⟨794774819, 2, 10⟩] :=
  (C7_unlock_only_own ⟨0, "", 1⟩ _ _ (by simp)).mpr (by decide)

/-- C8 counterexample: an insert failure whose error value is not a
`sqlite3.Error` (here a plain driver error) is not returned to the
caller — `Lock` falls into the Go `default` branch, records the owner
token (5, the current clock) and returns nil as if the lock were
acquired, with no lease row inserted.  This refutes the claim that every
non-uniqueness insert failure is returned as an error. -/
theorem C8_counterexample :
    sqliteDialect.Lock ⟨0, "", 99⟩ 5 .ok (fun _ => (.ok, .otherErr "disk I/O error"))
      = (none, ⟨5, none⟩) := by
  simp [sqliteDialect.Lock, sqliteDialect.timeoutDuration, sqliteLockLoop]

/-- C8 (amended): in the acquisition loop, only a uniqueness violation
(sqlite constraint error) leads to sleep-and-retry; a sqlite-typed
insert failure with any other code is returned to the caller with no
lock held; a successful insert records the owner token locally and
returns nil; and an insert failure carrying an error of any other
dynamic type is treated like success — the owner token is recorded and
nil is returned (though no lease row exists). -/
theorem C8_insert_dispatch (s : sqliteDialect) (dur timeout : Nat)
    (env : Nat → ExecResult × ExecResult) (now k : Nat) (h : now < timeout) :
    (∀ m, env k = (.ok, .sqliteErr sqlite3ErrConstraint m) →
      sqliteLockLoop s dur timeout env now k =
        sqliteLockLoop s dur timeout env (now + sqliteLockRetryInterval) (k + 1))
    ∧ (∀ c m, env k = (.ok, .sqliteErr c m) → c ≠ sqlite3ErrConstraint →
      sqliteLockLoop s dur timeout env now k = (some (.sqliteError c m), ⟨s.code, none⟩))
    ∧ (env k = (.ok, .ok) →
      sqliteLockLoop s dur timeout env now k =
        (none, ⟨now, some ⟨lockMagicNum, now, now + dur⟩⟩))
    ∧ (∀ m, env k = (.ok, .otherErr m) →
      sqliteLockLoop s dur timeout env now k = (none, ⟨now, none⟩)) :=
  ⟨fun m hk => sqliteLockLoop_insert_constraint s dur timeout env now k m h hk,
   fun c m hk hc => sqliteLockLoop_insert_nonconstraint s dur timeout env now k c m h hk hc,
   fun hk => sqliteLockLoop_insert_ok s dur timeout env now k h hk,
   fun m hk => sqliteLockLoop_insert_otherErr s dur timeout env now k m h hk⟩

/-- Witness for the amended C8: a first-try successful insert acquires the
lease row with the owner token recorded. -/
theorem C8_insert_dispatch_witness :
    sqliteLockLoop ⟨0, "", 0⟩ 30 1 (fun _ => (.ok, .ok)) 0 0
      = (none, ⟨0, some ⟨lockMagicNum, 0, 0 + 30⟩⟩) :=
  (C8_insert_dispatch ⟨0, "", 0⟩ 30 1 (fun _ => (.ok, .ok)) 0 0 (by decide)).2.2.1 rfl

/-- C10: whenever `Lock` inserted a lease row, the call succeeded and the
row carries the sentinel id, the recorded owner token, and an expiration
equal to its insertion time plus the acquisition timeout
(`LockDuration`, or 30 seconds when unset) — the lease lifetime equals
the acquisition timeout; and each of the four lease-table statements
(`Lock`'s create, sweep and insert, and `Unlock`'s delete) targets the
configured `LockTable`, falling back to the name `schema_lock` when
`LockTable` is empty. -/
theorem C10_lease_expiration_and_table (s : sqliteDialect) (start : Nat)
    (createRes : ExecResult) (env : Nat → ExecResult × ExecResult)
    (res : Option GoError) (st : LockAttemptState) (r : LeaseRow)
    (h : s.Lock start createRes env = (res, st)) (hr : st.ownRow = some r) :
    res = none ∧ r.id = lockMagicNum ∧ r.code = st.code
    ∧ r.expiration = r.code + s.timeoutDuration ∧ start ≤ r.code
    ∧ s.timeoutDuration = (if s.LockDuration = 0 then 30 else s.LockDuration)
    ∧ s.addTable createLockTableSQL =
        "\n\t\tCREATE TABLE IF NOT EXISTS "
          ++ (if s.LockTable = "" then defaultSQLiteLockTable else s.LockTable)
          ++ " (\n\t\t\tid INTEGER PRIMARY KEY,\n\t\t\tcode INTEGER,\n\t\t\texpiration DATETIME NOT NULL)"
    ∧ s.addTable deleteExpiredSQL =
        "DELETE FROM "
          ++ (if s.LockTable = "" then defaultSQLiteLockTable else s.LockTable)
          ++ " WHERE datetime(expiration) < datetime(\x27now\x27)"
    ∧ s.addTable insertLockSQL =
        "INSERT INTO "
          ++ (if s.LockTable = "" then defaultSQLiteLockTable else s.LockTable)
          ++ " (id, code, expiration) VALUES(?, ?, ?)"
    ∧ s.addTable unlockSQL =
        "DELETE FROM "
          ++ (if s.LockTable = "" then defaultSQLiteLockTable else s.LockTable)
          ++ " WHERE id=? AND code=?;" := by
  have htabs :
      s.addTable createLockTableSQL =
        "\n\t\tCREATE TABLE IF NOT EXISTS "
          ++ (if s.LockTable = "" then defaultSQLiteLockTable else s.LockTable)
          ++ " (\n\t\t\tid INTEGER PRIMARY KEY,\n\t\t\tcode INTEGER,\n\t\t\texpiration DATETIME NOT NULL)"
      ∧ s.addTable deleteExpiredSQL =
        "DELETE FROM "
          ++ (if s.LockTable = "" then defaultSQLiteLockTable else s.LockTable)
          ++ " WHERE datetime(expiration) < datetime(\x27now\x27)"
      ∧ s.addTable insertLockSQL =
        "INSERT INTO "
          ++ (if s.LockTable = "" then defaultSQLiteLockTable else s.LockTable)
          ++ " (id, code, expiration) VALUES(?, ?, ?)"
      ∧ s.addTable unlockSQL =
        "DELETE FROM "
          ++ (if s.LockTable = "" then defaultSQLiteLockTable else s.LockTable)
          ++ " WHERE id=? AND code=?;" := by
    refine ⟨addTable_template s _ _ _ (by decide) (by decide),
            addTable_template s _ _ _ (by decide) (by decide),
            addTable_template s _ _ _ (by decide) (by decide),
            addTable_template s _ _ _ (by decide) (by decide)⟩
  cases createRes with
  | sqliteErr c m =>
    simp only [sqliteDialect.Lock] at h
    obtain ⟨h1, h2⟩ := Prod.mk.injEq _ _ _ _ |>.mp h
    subst h2; simp at hr
  | otherErr m =>
    simp only [sqliteDialect.Lock] at h
    obtain ⟨h1, h2⟩ := Prod.mk.injEq _ _ _ _ |>.mp h
    subst h2; simp at hr
  | ok =>
    simp only [sqliteDialect.Lock] at h
    have hchar := sqliteLockLoop_ownRow_char s s.timeoutDuration (start + s.timeoutDuration)
      env ((start + s.timeoutDuration) - start) start 0 res st r rfl h hr
    exact ⟨hchar.1, hchar.2.1, hchar.2.2.1, hchar.2.2.2.1,
      hchar.2.2.2.2, rfl, htabs.1, htabs.2.1, htabs.2.2.1, htabs.2.2.2⟩

/-- Witness for C10: a first-try acquisition at time 3 with a 4-second
configured timeout yields a lease row expiring at 7. -/
theorem C10_lease_expiration_and_table_witness :
    (⟨lockMagicNum, 3, 7⟩ : LeaseRow).expiration =
      (⟨lockMagicNum, 3, 7⟩ : LeaseRow).code + (⟨4, "locks", 9⟩ : sqliteDialect).timeoutDuration :=
  (C10_lease_expiration_and_table ⟨4, "locks", 9⟩ 3 .ok (fun _ => (.ok, .ok))
    none ⟨3, some ⟨lockMagicNum, 3, 7⟩⟩ ⟨lockMagicNum, 3, 7⟩
    (by simp [sqliteDialect.Lock, sqliteDialect.timeoutDuration, sqliteLockLoop]) rfl).2.2.2.1

/- ### Theorems: migration engine -/

theorem runMigrations_eq {σ : Type} (env : ExecEnv σ) :
    ∀ (l : List Migration) (k : Nat) (w : World σ),
      runMigrations env k l w =
        (runErr env k l w.schema,
         { tracking := w.tracking ++ newRows env k l w.schema,
           schema := newSchema env k l w.schema,
           locked := w.locked,
           sqlLog := w.sqlLog ++ newLog env k l w.schema,
           scriptsRun := w.scriptsRun ++ newScripts env k l w.schema }) := by
  intro l
  induction l with
  | nil => intro k w; simp [runMigrations, runErr, newRows, newSchema, newLog, newScripts]
  | cons mg rest ih =>
    intro k w
    rcases hout : env.runScript w.schema mg.Script with s2 | msg | p
    · rw [runMigrations]
      simp only [hout]
      rw [ih]
      simp [runErr, newRows, newSchema, newLog, newScripts, hout, mkRow]
    · rw [runMigrations]
      simp only [hout]
      simp [runErr, newRows, newSchema, newLog, newScripts, hout]
    · rw [runMigrations]
      simp only [hout]
      simp [runErr, newRows, newSchema, newLog, newScripts, hout]

theorem sortMigrations_perm (ms : List Migration) : (sortMigrations ms).Perm ms :=
  List.perm_insertionSort migLE ms

theorem sortMigrations_sorted (ms : List Migration) : List.Sorted migLE (sortMigrations ms) :=
  List.sorted_insertionSort migLE ms

theorem sortMigrations_nodup_ID {ms : List Migration}
    (h : (ms.map Migration.ID).Nodup) : ((sortMigrations ms).map Migration.ID).Nodup :=
  (((sortMigrations_perm ms).map Migration.ID).nodup_iff).mpr h

theorem sortMigrations_sorted_strict {ms : List Migration}
    (h : (ms.map Migration.ID).Nodup) : List.Sorted migLT (sortMigrations ms) := by
  have hle := sortMigrations_sorted ms
  have hne : (sortMigrations ms).Pairwise (fun a b => a.ID ≠ b.ID) :=
    List.pairwise_map.mp (sortMigrations_nodup_ID h)
  exact (hle.and hne).imp (fun hab => lt_of_le_of_ne hab.1 hab.2)

theorem sortMigrations_eq_of_perm {ms1 ms2 : List Migration}
    (hperm : ms1.Perm ms2) (hnodup : (ms1.map Migration.ID).Nodup) :
    sortMigrations ms1 = sortMigrations ms2 := by
  have hnodup2 : (ms2.map Migration.ID).Nodup := ((hperm.map Migration.ID).nodup_iff).mp hnodup
  exact List.eq_of_perm_of_sorted
    ((sortMigrations_perm ms1).trans (hperm.trans (sortMigrations_perm ms2).symm))
    (sortMigrations_sorted_strict hnodup)
    (sortMigrations_sorted_strict hnodup2)

theorem computePlan_eq_of_perm (applied : List String) {ms1 ms2 : List Migration}
    (hperm : ms1.Perm ms2) (hnodup : (ms1.map Migration.ID).Nodup) :
    computePlan applied ms1 = computePlan applied ms2 := by
  rw [computePlan, computePlan, sortMigrations_eq_of_perm hperm hnodup]

theorem computePlan_sorted_strict (applied : List String) {ms : List Migration}
    (hnodup : (ms.map Migration.ID).Nodup) :
    List.Sorted migLT (computePlan applied ms) :=
  (sortMigrations_sorted_strict hnodup).sublist (List.filter_sublist _)

theorem computePlan_map_ID_sorted (applied : List String) {ms : List Migration}
    (hnodup : (ms.map Migration.ID).Nodup) :
    List.Sorted (· < ·) ((computePlan applied ms).map Migration.ID) :=
  List.pairwise_map.mpr (computePlan_sorted_strict applied hnodup)

theorem computePlan_subset {applied : List String} {ms : List Migration} {mg : Migration}
    (h : mg ∈ computePlan applied ms) : mg ∈ ms := by
  rw [computePlan] at h
  exact (sortMigrations_perm ms).mem_iff.mp (List.mem_of_mem_filter h)

theorem computePlan_mem_iff {applied : List String} {ms : List Migration} {mg : Migration} :
    mg ∈ computePlan applied ms ↔ mg ∈ ms ∧ mg.ID ∉ applied := by
  rw [computePlan, List.mem_filter, (sortMigrations_perm ms).mem_iff]
  simp

theorem computePlan_nil_of_all {applied : List String} {ms : List Migration}
    (h : ∀ mg ∈ ms, mg.ID ∈ applied) : computePlan applied ms = [] := by
  rw [computePlan, List.filter_eq_nil_iff]
  intro mg hmg
  simp [h mg ((sortMigrations_perm ms).mem_iff.mp hmg)]

theorem computePlan_nodup_ID {applied : List String} {ms : List Migration}
    (hnodup : (ms.map Migration.ID).Nodup) :
    ((computePlan applied ms).map Migration.ID).Nodup :=
  (sortMigrations_nodup_ID hnodup).sublist ((List.filter_sublist _).map Migration.ID)

theorem newRows_map_ID_leading {σ : Type} (env : ExecEnv σ) :
    ∀ (l : List Migration) (k : Nat) (s : σ),
      (newRows env k l s).map AppliedMigration.ID <+: l.map Migration.ID := by
  intro l
  induction l with
  | nil => intro k s; simp [newRows]
  | cons mg rest ih =>
    intro k s
    rcases hout : env.runScript s mg.Script with s2 | msg | p
    · rw [newRows]
      simp only [hout, List.map_cons, mkRow]
      exact List.cons_prefix_cons.mpr ⟨rfl, ih (k + 1) s2⟩
    · rw [newRows]; simp [hout]
    · rw [newRows]; simp [hout]

theorem newRows_appliedAt_mem {σ : Type} (env : ExecEnv σ) :
    ∀ (l : List Migration) (k : Nat) (s : σ) (x : AppliedMigration),
      x ∈ newRows env k l s → ∃ j, k ≤ j ∧ x.AppliedAt = env.clock j := by
  intro l
  induction l with
  | nil => intro k s x hx; simp [newRows] at hx
  | cons mg rest ih =>
    intro k s x hx
    rcases hout : env.runScript s mg.Script with s2 | msg | p <;> rw [newRows] at hx <;>
      simp only [hout, List.mem_cons, List.not_mem_nil] at hx
    · rcases hx with h1 | h2
      · exact ⟨k, le_refl k, by rw [h1]; rfl⟩
      · obtain ⟨j, hj, hja⟩ := ih (k + 1) s2 x h2
        exact ⟨j, by omega, hja⟩

theorem newRows_appliedAt_sorted {σ : Type} (env : ExecEnv σ) (hclock : Monotone env.clock) :
    ∀ (l : List Migration) (k : Nat) (s : σ),
      List.Sorted (· ≤ ·) ((newRows env k l s).map AppliedMigration.AppliedAt) := by
  intro l
  induction l with
  | nil => intro k s; simp [newRows]
  | cons mg rest ih =>
    intro k s
    rcases hout : env.runScript s mg.Script with s2 | msg | p <;> rw [newRows] <;>
      simp only [hout]
    · rw [List.map_cons, List.sorted_cons]
      refine ⟨fun b hb => ?_, ih (k + 1) s2⟩
      obtain ⟨x, hx, hxb⟩ := List.mem_map.mp hb
      obtain ⟨j, hj, hja⟩ := newRows_appliedAt_mem env rest (k + 1) s2 x hx
      rw [mkRow, ← hxb, hja]
      exact hclock (by omega)
    · simp
    · simp

theorem runErr_none_ids {σ : Type} (env : ExecEnv σ) :
    ∀ (l : List Migration) (k : Nat) (s : σ), runErr env k l s = none →
      (newRows env k l s).map AppliedMigration.ID = l.map Migration.ID := by
  intro l
  induction l with
  | nil => intro k s _; simp [newRows]
  | cons mg rest ih =>
    intro k s h
    rcases hout : env.runScript s mg.Script with s2 | msg | p <;>
      rw [runErr] at h <;> simp only [hout] at h
    · rw [newRows]
      simp only [hout, List.map_cons, mkRow]
      rw [ih (k + 1) s2 h]
    · exact absurd h (by simp)
    · exact absurd h (by simp)

theorem Apply_latched {σ : Type} (env : ExecEnv σ) (m : Migrator) (e : GoError)
    (hm : m.err = some e) (hasDB : Bool) (lr cr : Option GoError) (qf : Option String)
    (ms : List Migration) (w : World σ) :
    Migrator.Apply m env hasDB lr cr qf ms w = (m, w) := by
  simp [Migrator.Apply, hm]

theorem Apply_lockfail {σ : Type} (env : ExecEnv σ) (m : Migrator) (hm : m.err = none)
    (e : GoError) (cr : Option GoError) (qf : Option String)
    (ms : List Migration) (w : World σ) :
    Migrator.Apply m env true (some e) cr qf ms w =
      ({ m with err := some e },
       { w with sqlLog := w.sqlLog ++ ["SELECT pg_advisory_lock"] }) := by
  simp [Migrator.Apply, Migrator.lock, Migrator.createMigrationsTable, Migrator.run, hm]

theorem Apply_createfail_parts {σ : Type} (env : ExecEnv σ) (m : Migrator) (hm : m.err = none)
    (e : GoError) (qf : Option String) (ms : List Migration) (w : World σ) :
    (Migrator.Apply m env true none (some e) qf ms w).1 = { m with err := some e }
    ∧ (Migrator.Apply m env true none (some e) qf ms w).2.tracking = w.tracking
    ∧ (Migrator.Apply m env true none (some e) qf ms w).2.scriptsRun = w.scriptsRun
    ∧ (Migrator.Apply m env true none (some e) qf ms w).2.locked = false := by
  simp [Migrator.Apply, Migrator.lock, Migrator.createMigrationsTable, Migrator.run, hm]

theorem Apply_queryfail_parts {σ : Type} (env : ExecEnv σ) (m : Migrator) (hm : m.err = none)
    (msg : String) (ms : List Migration) (w : World σ) :
    (Migrator.Apply m env true none none (some msg) ms w).1 =
      { m with err := some (.queryFailed msg) }
    ∧ (Migrator.Apply m env true none none (some msg) ms w).2.tracking = w.tracking
    ∧ (Migrator.Apply m env true none none (some msg) ms w).2.scriptsRun = w.scriptsRun
    ∧ (Migrator.Apply m env true none none (some msg) ms w).2.locked = false := by
  simp [Migrator.Apply, Migrator.lock, Migrator.createMigrationsTable, Migrator.run,
    Migrator.computeMigrationPlan, hm]

theorem Apply_ok_parts {σ : Type} (env : ExecEnv σ) (m : Migrator) (hm : m.err = none)
    (ms : List Migration) (w : World σ) :
    (Migrator.Apply m env true none none none ms w).1 =
      { m with err := runErr env 0 (computePlan (w.tracking.map AppliedMigration.ID) ms) w.schema }
    ∧ (Migrator.Apply m env true none none none ms w).2.tracking =
      w.tracking ++ newRows env 0 (computePlan (w.tracking.map AppliedMigration.ID) ms) w.schema
    ∧ (Migrator.Apply m env true none none none ms w).2.scriptsRun =
      w.scriptsRun ++ newScripts env 0 (computePlan (w.tracking.map AppliedMigration.ID) ms) w.schema
    ∧ (Migrator.Apply m env true none none none ms w).2.locked = false := by
  simp [Migrator.Apply, Migrator.lock, Migrator.createMigrationsTable, Migrator.run,
    Migrator.computeMigrationPlan, hm, runMigrations_eq]

/-- C3: once the Migrator latch `err` is set, every operation — `lock`,
`unlock`, `createMigrationsTable`, `run`, `Apply`, `transaction`, and
`computeMigrationPlan` — returns immediately with the same latched
error, issues no SQL and changes neither the latch nor the backing
store; no operation resets the latch. -/
theorem C3_error_latch {σ : Type} (env : ExecEnv σ) (m : Migrator) (e : GoError)
    (hm : m.err = some e) (w : World σ) (lockRes createRes unlockRes : Option GoError)
    (queryFail : Option String) (ms : List Migration) (hasDB beginOK : Bool)
    (body : ScriptOutcome Unit) :
    m.lock w lockRes = (m, w)
    ∧ m.unlock w unlockRes = (m, w)
    ∧ m.createMigrationsTable w createRes = (m, w)
    ∧ m.run env hasDB queryFail ms w = (m, w)
    ∧ Migrator.Apply m env hasDB lockRes createRes queryFail ms w = (m, w)
    ∧ m.transaction hasDB beginOK body = m
    ∧ m.computeMigrationPlan w queryFail ms = (.error e, w) := by
  refine ⟨?_, ?_, ?_, ?_,
    Apply_latched env m e hm hasDB lockRes createRes queryFail ms w, ?_, ?_⟩ <;>
    simp [Migrator.lock, Migrator.unlock, Migrator.createMigrationsTable, Migrator.run,
      Migrator.transaction, Migrator.computeMigrationPlan, hm]

/-- Witness for C3: a latched Migrator ignores a transaction request. -/
theorem C3_error_latch_witness :
    Migrator.transaction ⟨"m", some .priorFailure⟩ true true (.ok ()) =
      ⟨"m", some .priorFailure⟩ :=
  (C3_error_latch pgEnv ⟨"m", some .priorFailure⟩ .priorFailure rfl initWorld
    none none none none [] true true (.ok ())).2.2.2.2.2.1

/-- C2: applying the same migration set twice through the same Migrator
and tracking table leaves the tracking-table contents of the first call
unchanged and executes no migration script in the second call — with a
latched first call the second short-circuits, and after a successful
first call every candidate ID is already in the applied set, so
`computeMigrationPlan` filters all candidates out. -/
theorem C2_apply_twice {σ : Type} (env : ExecEnv σ) (m : Migrator) (w : World σ)
    (ms : List Migration) (lr1 cr1 : Option GoError) (qf1 : Option String)
    (lr2 cr2 : Option GoError) (qf2 : Option String) (r1 r2 : Migrator × World σ)
    (h1 : Migrator.Apply m env true lr1 cr1 qf1 ms w = r1)
    (h2 : Migrator.Apply r1.1 env true lr2 cr2 qf2 ms r1.2 = r2) :
    r2.2.tracking = r1.2.tracking ∧ r2.2.scriptsRun = r1.2.scriptsRun := by
  rcases herr : r1.1.err with _ | e2
  case some =>
    rw [Apply_latched env r1.1 e2 herr true lr2 cr2 qf2 ms r1.2] at h2
    rw [← h2]
    exact ⟨rfl, rfl⟩
  case none =>
    rcases hm : m.err with _ | e0
    case some =>
      rw [Apply_latched env m e0 hm true lr1 cr1 qf1 ms w] at h1
      rw [← h1] at herr
      rw [hm] at herr
      exact absurd herr (by simp)
    case none =>
    rcases lr1 with _ | e1
    case some =>
      rw [Apply_lockfail env m hm e1 cr1 qf1 ms w] at h1
      rw [← h1] at herr
      simp at herr
    case none =>
    rcases cr1 with _ | e1
    case some =>
      have hp := Apply_createfail_parts env m hm e1 qf1 ms w
      rw [h1] at hp
      rw [hp.1] at herr
      simp at herr
    case none =>
    rcases qf1 with _ | msg1
    case some =>
      have hp := Apply_queryfail_parts env m hm msg1 ms w
      rw [h1] at hp
      rw [hp.1] at herr
      simp at herr
    case none =>
    have hp := Apply_ok_parts env m hm ms w
    rw [h1] at hp
    have hrunerr : runErr env 0 (computePlan (w.tracking.map AppliedMigration.ID) ms)
        w.schema = none := by
      have := hp.1
      rw [this] at herr
      simpa using herr
    have hids : (newRows env 0 (computePlan (w.tracking.map AppliedMigration.ID) ms)
        w.schema).map AppliedMigration.ID
        = (computePlan (w.tracking.map AppliedMigration.ID) ms).map Migration.ID :=
      runErr_none_ids env _ 0 w.schema hrunerr
    have hall : ∀ mg ∈ ms, mg.ID ∈ r1.2.tracking.map AppliedMigration.ID := by
      intro mg hmg
      rw [hp.2.1, List.map_append, hids]
      by_cases hw : mg.ID ∈ w.tracking.map AppliedMigration.ID
      · exact List.mem_append_left _ hw
      · refine List.mem_append_right _ ?_
        exact List.mem_map_of_mem Migration.ID (computePlan_mem_iff.mpr ⟨hmg, hw⟩)
    have hplan2 : computePlan (r1.2.tracking.map AppliedMigration.ID) ms = [] :=
      computePlan_nil_of_all hall
    rcases lr2 with _ | e2b
    case some =>
      rw [Apply_lockfail env r1.1 herr e2b cr2 qf2 ms r1.2] at h2
      rw [← h2]
      exact ⟨rfl, rfl⟩
    case none =>
    rcases cr2 with _ | e2b
    case some =>
      have hq := Apply_createfail_parts env r1.1 herr e2b qf2 ms r1.2
      rw [h2] at hq
      exact ⟨hq.2.1, hq.2.2.1⟩
    case none =>
    rcases qf2 with _ | msg2
    case some =>
      have hq := Apply_queryfail_parts env r1.1 herr msg2 ms r1.2
      rw [h2] at hq
      exact ⟨hq.2.1, hq.2.2.1⟩
    case none =>
    have hq := Apply_ok_parts env r1.1 herr ms r1.2
    rw [h2] at hq
    rw [hplan2] at hq
    refine ⟨?_, ?_⟩
    · rw [hq.2.1]; simp [newRows]
    · rw [hq.2.2.1]; simp [newScripts]

/-- Witness for C2 at the shared three-migration set: the second `Apply`
adds no tracking rows. -/
theorem C2_apply_twice_witness :
    (Migrator.Apply (Migrator.Apply ⟨"m", none⟩ pgEnv true none none none
        sharedMigrations initWorld).1 pgEnv true none none none sharedMigrations
        (Migrator.Apply ⟨"m", none⟩ pgEnv true none none none
          sharedMigrations initWorld).2).2.tracking
      = (Migrator.Apply ⟨"m", none⟩ pgEnv true none none none
          sharedMigrations initWorld).2.tracking :=
  (C2_apply_twice pgEnv ⟨"m", none⟩ initWorld sharedMigrations none none none
    none none none _ _ rfl rfl).1

/-- C1: for a migration set with unique IDs, `Apply` behaves identically on
any input ordering (the computed plan is the ascending lexical sort);
the plan's IDs are strictly ascending; and the tracking rows a run
appends carry strictly ascending IDs and, under a monotone clock,
non-decreasing `applied_at` timestamps in execution order. -/
theorem C1_lexical_order {σ : Type} (env : ExecEnv σ) (m : Migrator) (w : World σ)
    (ms1 ms2 : List Migration) (hperm : ms1.Perm ms2)
    (hnodup : (ms1.map Migration.ID).Nodup) (hclock : Monotone env.clock)
    (hm : m.err = none) :
    Migrator.Apply m env true none none none ms1 w
      = Migrator.Apply m env true none none none ms2 w
    ∧ List.Sorted (· < ·)
        ((computePlan (w.tracking.map AppliedMigration.ID) ms1).map Migration.ID)
    ∧ List.Sorted (· < ·)
        (((Migrator.Apply m env true none none none ms1 w).2.tracking.drop
          w.tracking.length).map AppliedMigration.ID)
    ∧ List.Sorted (· ≤ ·)
        (((Migrator.Apply m env true none none none ms1 w).2.tracking.drop
          w.tracking.length).map AppliedMigration.AppliedAt) := by
  have hplan := computePlan_eq_of_perm (w.tracking.map AppliedMigration.ID) hperm hnodup
  have heq : Migrator.Apply m env true none none none ms1 w
      = Migrator.Apply m env true none none none ms2 w := by
    simp [Migrator.Apply, Migrator.lock, Migrator.createMigrationsTable, Migrator.run,
      Migrator.computeMigrationPlan, hm, hplan]
  have hparts := Apply_ok_parts env m hm ms1 w
  have hdrop : (Migrator.Apply m env true none none none ms1 w).2.tracking.drop
      w.tracking.length
      = newRows env 0 (computePlan (w.tracking.map AppliedMigration.ID) ms1) w.schema := by
    rw [hparts.2.1, List.drop_left]
  refine ⟨heq, computePlan_map_ID_sorted _ hnodup, ?_, ?_⟩
  · rw [hdrop]
    exact List.Pairwise.sublist (newRows_map_ID_leading env _ 0 w.schema).sublist
      (computePlan_map_ID_sorted _ hnodup)
  · rw [hdrop]
    exact newRows_appliedAt_sorted env hclock _ 0 w.schema

/-- Witness for C1: a shuffled copy of the shared migration set yields the
strictly ascending plan. -/
theorem C1_lexical_order_witness :
    List.Sorted (· < ·)
      ((computePlan (initWorld.tracking.map AppliedMigration.ID)
        [⟨"2020-05-03 Add Initial Record", seedInsertScript⟩,
         ⟨"2020-05-01 Sleep", sleepScript⟩,
         ⟨"2020-05-02 Create Data Table", createDataTableScript⟩]).map Migration.ID) :=
  (C1_lexical_order pgEnv ⟨"m", none⟩ initWorld
    [⟨"2020-05-03 Add Initial Record", seedInsertScript⟩,
     ⟨"2020-05-01 Sleep", sleepScript⟩,
     ⟨"2020-05-02 Create Data Table", createDataTableScript⟩]
    sharedMigrations (by decide) (by decide) (fun _ _ h => h) rfl).2.1

theorem runPure_append_ok {σ : Type} (env : ExecEnv σ) :
    ∀ (p1 : List Migration),
      (∀ x ∈ p1, ∀ s : σ, ∃ s2, env.runScript s x.Script = .ok s2) →
      ∀ (rest : List Migration) (k : Nat) (s : σ),
        runErr env k (p1 ++ rest) s
          = runErr env (k + p1.length) rest (newSchema env k p1 s)
        ∧ newRows env k (p1 ++ rest) s
          = newRows env k p1 s ++ newRows env (k + p1.length) rest (newSchema env k p1 s)
        ∧ (newRows env k p1 s).map AppliedMigration.ID = p1.map Migration.ID := by
  intro p1
  induction p1 with
  | nil => intro _ rest k s; simp [runErr, newRows, newSchema]
  | cons x p ih =>
    intro h rest k s
    obtain ⟨s2, hs2⟩ := h x (by simp) s
    have hih := ih (fun y hy s3 => h y (by simp [hy]) s3) rest (k + 1) s2
    have hlen : k + (x :: p).length = k + 1 + p.length := by simp; omega
    refine ⟨?_, ?_, ?_⟩
    · rw [List.cons_append, runErr]
      simp only [hs2]
      rw [hih.1, hlen, newSchema]
      simp only [hs2]
    · rw [List.cons_append, newRows]
      simp only [hs2]
      rw [hih.2.1]
      conv_rhs => rw [newRows]
      simp only [hs2]
      rw [hlen, newSchema]
      simp only [hs2, List.cons_append]
    · rw [newRows]
      simp only [hs2, List.map_cons, mkRow]
      rw [hih.2.2]

theorem runErr_head_fail {σ : Type} (env : ExecEnv σ) (mg : Migration) (msg : String)
    (hfail : ∀ s : σ, env.runScript s mg.Script = .fail msg)
    (p2 : List Migration) (k : Nat) (s : σ) :
    runErr env k (mg :: p2) s = some (.scriptFailed msg)
    ∧ newRows env k (mg :: p2) s = [] := by
  constructor
  · rw [runErr]; simp only [hfail s]
  · rw [newRows]; simp only [hfail s]

theorem runErr_head_panic {σ : Type} (env : ExecEnv σ) (mg : Migration) (p : PanicValue)
    (hpanic : ∀ s : σ, env.runScript s mg.Script = .panicked p)
    (p2 : List Migration) (k : Nat) (s : σ) :
    runErr env k (mg :: p2) s = some (recoverToError p)
    ∧ newRows env k (mg :: p2) s = [] := by
  constructor
  · rw [runErr]; simp only [hpanic s]
  · rw [newRows]; simp only [hpanic s]

theorem Apply_first_bad {σ : Type} (env : ExecEnv σ) (m : Migrator) (w : World σ)
    (ms : List Migration) (mg : Migration) (ebad : GoError) (hm : m.err = none)
    (hmg : mg ∈ ms) (hnodup : (ms.map Migration.ID).Nodup)
    (hnotapplied : mg.ID ∉ w.tracking.map AppliedMigration.ID)
    (hbad : ∀ (p2 : List Migration) (k : Nat) (s : σ),
      runErr env k (mg :: p2) s = some ebad ∧ newRows env k (mg :: p2) s = [])
    (hothers : ∀ x ∈ ms, x.ID ≠ mg.ID → ∀ s : σ, ∃ s2, env.runScript s x.Script = .ok s2) :
    (Migrator.Apply m env true none none none ms w).1.err = some ebad
    ∧ mg.ID ∉
      (Migrator.Apply m env true none none none ms w).2.tracking.map AppliedMigration.ID
    ∧ (Migrator.Apply m env true none none none ms w).2.locked = false := by
  have hparts := Apply_ok_parts env m hm ms w
  have hmgplan : mg ∈ computePlan (w.tracking.map AppliedMigration.ID) ms :=
    computePlan_mem_iff.mpr ⟨hmg, hnotapplied⟩
  obtain ⟨p1, p2, hsplit⟩ := List.append_of_mem hmgplan
  have hnodupplan : ((computePlan (w.tracking.map AppliedMigration.ID) ms).map
      Migration.ID).Nodup := computePlan_nodup_ID hnodup
  have hmgid_notp1 : mg.ID ∉ p1.map Migration.ID := by
    rw [hsplit] at hnodupplan
    simp only [List.map_append, List.map_cons, List.nodup_append] at hnodupplan
    intro hcontra
    exact hnodupplan.2.2 hcontra (List.mem_cons_self _ _)
  have hp1ok : ∀ x ∈ p1, ∀ s : σ, ∃ s2, env.runScript s x.Script = .ok s2 := by
    intro x hx s
    have hxplan : x ∈ computePlan (w.tracking.map AppliedMigration.ID) ms := by
      rw [hsplit]; exact List.mem_append_left _ hx
    refine hothers x (computePlan_subset hxplan) ?_ s
    intro hxeq
    exact hmgid_notp1 (hxeq ▸ List.mem_map_of_mem Migration.ID hx)
  have hsplitlem := runPure_append_ok env p1 hp1ok (mg :: p2) 0 w.schema
  have herr2 : runErr env 0 (computePlan (w.tracking.map AppliedMigration.ID) ms)
      w.schema = some ebad := by
    rw [hsplit, hsplitlem.1, (hbad p2 _ _).1]
  have hrows : (newRows env 0 (computePlan (w.tracking.map AppliedMigration.ID) ms)
      w.schema).map AppliedMigration.ID = p1.map Migration.ID := by
    rw [hsplit, hsplitlem.2.1, (hbad p2 _ _).2, List.append_nil, hsplitlem.2.2]
  refine ⟨?_, ?_, hparts.2.2.2⟩
  · rw [hparts.1]
    simp [herr2]
  · rw [hparts.2.1, List.map_append, hrows]
    simp only [List.mem_append]
    rintro (hc | hc)
    · exact hnotapplied hc
    · exact hmgid_notp1 hc

/-- C4: when a pending migration's script fails (and the other migrations
are well formed), its transaction is rolled back: `Apply` latches and
returns the script failure carrying the driver's message verbatim (so
the error text retains the fragment identifying the failing statement),
and the tracking table holds zero rows for that migration's ID. -/
theorem C4_failed_migration {σ : Type} (env : ExecEnv σ) (m : Migrator) (w : World σ)
    (ms : List Migration) (mg : Migration) (msg : String) (hm : m.err = none)
    (hmg : mg ∈ ms) (hnodup : (ms.map Migration.ID).Nodup)
    (hnotapplied : mg.ID ∉ w.tracking.map AppliedMigration.ID)
    (hfail : ∀ s : σ, env.runScript s mg.Script = .fail msg)
    (hothers : ∀ x ∈ ms, x.ID ≠ mg.ID → ∀ s : σ, ∃ s2, env.runScript s x.Script = .ok s2) :
    (Migrator.Apply m env true none none none ms w).1.err = some (.scriptFailed msg)
    ∧ (GoError.scriptFailed msg).message = msg
    ∧ mg.ID ∉
      (Migrator.Apply m env true none none none ms w).2.tracking.map AppliedMigration.ID := by
  have hb := Apply_first_bad env m w ms mg (.scriptFailed msg) hm hmg hnodup hnotapplied
    (fun p2 k s => runErr_head_fail env mg msg hfail p2 k s) hothers
  exact ⟨hb.1, rfl, hb.2.1⟩

/-- Witness for C4: a two-migration set whose second script is
syntactically invalid fails with the driver's TIBBLE message and leaves
no tracking row for it. -/
theorem C4_failed_migration_witness :
    (Migrator.Apply ⟨"m", none⟩
      ⟨fun s scr => if scr = sleepScript then .ok s
          else .fail "ERROR: syntax error at or near TIBBLE",
        fun _ => "c", fun _ => 0, fun k => k⟩
      true none none none
      [⟨"2019-01-01 A", sleepScript⟩, ⟨"2019-01-01 Bad Migration", "CREATE TIBBLE"⟩]
      initWorld).1.err
    = some (.scriptFailed "ERROR: syntax error at or near TIBBLE") :=
  (C4_failed_migration _ ⟨"m", none⟩ initWorld _ ⟨"2019-01-01 Bad Migration", "CREATE TIBBLE"⟩
    "ERROR: syntax error at or near TIBBLE" rfl (by simp) (by decide)
    (by simp [initWorld])
    (fun s => rfl)
    (by
      intro x hx hne s
      simp only [List.mem_cons, List.not_mem_nil, or_false] at hx
      rcases hx with rfl | rfl
      · exact ⟨s, rfl⟩
      · exact absurd rfl hne)).1

/-- C5: a panic raised while executing a migration inside the
transactional step is caught and converted to an error whose message is
the payload's string form — string payloads and error payloads are both
preserved verbatim — the panic is treated as that migration's failure
(latched and returned), and the lock is still released afterward; the
standalone `transaction` boundary performs the same conversion. -/
theorem C5_panic_recovery {σ : Type} (env : ExecEnv σ) (m : Migrator) (w : World σ)
    (ms : List Migration) (mg : Migration) (p : PanicValue) (hm : m.err = none)
    (hmg : mg ∈ ms) (hnodup : (ms.map Migration.ID).Nodup)
    (hnotapplied : mg.ID ∉ w.tracking.map AppliedMigration.ID)
    (hpanic : ∀ s : σ, env.runScript s mg.Script = .panicked p)
    (hothers : ∀ x ∈ ms, x.ID ≠ mg.ID → ∀ s : σ, ∃ s2, env.runScript s x.Script = .ok s2) :
    (Migrator.Apply m env true none none none ms w).1.err = some (.panicked p.message)
    ∧ (GoError.panicked p.message).message = p.message
    ∧ (∀ s2 : String, PanicValue.message (.str s2) = s2)
    ∧ (∀ e : GoError, PanicValue.message (.errVal e) = e.message)
    ∧ (Migrator.Apply m env true none none none ms w).2.locked = false
    ∧ (∀ tname : String, Migrator.transaction ⟨tname, none⟩ true true (.panicked p)
        = ⟨tname, some (.panicked p.message)⟩) := by
  have hb := Apply_first_bad env m w ms mg (.panicked p.message) hm hmg hnodup hnotapplied
    (fun p2 k s => runErr_head_panic env mg p hpanic p2 k s) hothers
  refine ⟨hb.1, rfl, fun _ => rfl, fun _ => rfl, hb.2.2, fun tname => ?_⟩
  simp [Migrator.transaction, recoverToError]

/-- Witness for C5: an error-valued panic payload with message
"Panic Error" surfaces verbatim as the latched error. -/
theorem C5_panic_recovery_witness :
    (Migrator.Apply ⟨"m", none⟩
      ⟨fun s scr => if scr = sleepScript then .ok s
          else .panicked (.errVal (.otherError "Panic Error")),
        fun _ => "c", fun _ => 0, fun k => k⟩
      true none none none
      [⟨"2019-01-01 A", sleepScript⟩, ⟨"2019-01-01 Panics", "SELECT boom()"⟩]
      initWorld).1.err
    = some (.panicked (PanicValue.message (.errVal (.otherError "Panic Error")))) :=
  (C5_panic_recovery _ ⟨"m", none⟩ initWorld _ ⟨"2019-01-01 Panics", "SELECT boom()"⟩
    (.errVal (.otherError "Panic Error")) rfl (by simp) (by decide)
    (by simp [initWorld])
    (fun s => rfl)
    (by
      intro x hx hne s
      simp only [List.mem_cons, List.not_mem_nil, or_false] at hx
      rcases hx with rfl | rfl
      · exact ⟨s, rfl⟩
      · exact absurd rfl hne)).1

theorem migLE_shared_12 :
    migLE ⟨"2020-05-01 Sleep", sleepScript⟩
      ⟨"2020-05-02 Create Data Table", createDataTableScript⟩ := by
  show ("2020-05-01 Sleep" : String) ≤ "2020-05-02 Create Data Table"
  rw [String.le_iff_toList_le]
  decide

theorem migLE_shared_23 :
    migLE ⟨"2020-05-02 Create Data Table", createDataTableScript⟩
      ⟨"2020-05-03 Add Initial Record", seedInsertScript⟩ := by
  show ("2020-05-02 Create Data Table" : String) ≤ "2020-05-03 Add Initial Record"
  rw [String.le_iff_toList_le]
  decide

theorem sortMigrations_shared : sortMigrations sharedMigrations = sharedMigrations := by
  rw [sortMigrations]
  exact List.Sorted.insertionSort_eq (by
    simp [sharedMigrations, List.sorted_cons]
    exact ⟨⟨migLE_shared_12, migLE_shared_12.trans migLE_shared_23⟩, migLE_shared_23⟩)

theorem computePlan_shared_empty : computePlan [] sharedMigrations = sharedMigrations := by
  rw [computePlan, sortMigrations_shared]
  simp

theorem computePlan_shared_full : computePlan sharedIDs sharedMigrations = [] := by
  rw [computePlan, sortMigrations_shared]
  simp [sharedMigrations, sharedIDs]

theorem newRows_shared_ids (s : PgState) :
    (newRows pgEnv 0 sharedMigrations s).map AppliedMigration.ID = sharedIDs := by
  simp [newRows, pgEnv, pgRunScript, sharedMigrations, sharedIDs, mkRow,
    sleepScript, createDataTableScript, seedInsertScript]

theorem newSchema_shared (s : PgState) :
    newSchema pgEnv 0 sharedMigrations s = ⟨true, s.dataRows + 1⟩ := by
  simp [newSchema, pgEnv, pgRunScript, sharedMigrations,
    sleepScript, createDataTableScript, seedInsertScript]

theorem runErr_shared (s : PgState) : runErr pgEnv 0 sharedMigrations s = none := by
  simp [runErr, pgEnv, pgRunScript, sharedMigrations,
    sleepScript, createDataTableScript, seedInsertScript]

theorem doneCountF_update_ne {N : Nat} (f : Fin N → AgentState) (i : Fin N) (a : AgentState)
    (ha : a.phase ≠ 5) (hf : (f i).phase ≠ 5) :
    doneCountF (Function.update f i a) = doneCountF f := by
  unfold doneCountF
  apply congrArg Finset.card
  ext j
  simp only [Finset.mem_filter, Finset.mem_univ, true_and]
  by_cases hj : j = i
  · subst hj
    rw [Function.update_same]
    exact iff_of_false ha hf
  · rw [Function.update_noteq hj]

theorem doneCountF_update_to5 {N : Nat} (f : Fin N → AgentState) (i : Fin N) (a : AgentState)
    (ha : a.phase = 5) (hf : (f i).phase ≠ 5) :
    doneCountF (Function.update f i a) = doneCountF f + 1 := by
  unfold doneCountF
  have hins : Finset.univ.filter (fun j => (Function.update f i a j).phase = 5)
      = insert i (Finset.univ.filter (fun j => (f j).phase = 5)) := by
    ext j
    simp only [Finset.mem_filter, Finset.mem_univ, true_and, Finset.mem_insert]
    by_cases hj : j = i
    · subst hj
      rw [Function.update_same]
      simp [ha]
    · rw [Function.update_noteq hj]
      simp [hj]
  rw [hins, Finset.card_insert_of_not_mem (by simp [hf])]

theorem sysStep_cases {N : Nat} (s : Sys N) (i : Fin N) (s2 : Sys N)
    (h : sysStep s i = some s2) :
    ((s.agents i).phase = 0 ∧ s.lockOwner = none ∧
      s2 = { s with
              lockOwner := some i,
              agents := Function.update s.agents i ⟨1, (s.agents i).plan⟩ })
    ∨ ((s.agents i).phase = 1 ∧
      s2 = { s with
              agents := Function.update s.agents i
                ⟨2, computePlan (s.world.tracking.map AppliedMigration.ID) sharedMigrations⟩ })
    ∨ ((s.agents i).phase = 2 ∧
      s2 = { s with
              world := (runMigrations pgEnv 0 (s.agents i).plan s.world).2,
              agents := Function.update s.agents i ⟨3, (s.agents i).plan⟩ })
    ∨ ((s.agents i).phase = 3 ∧
      s2 = { s with
              lockOwner := none,
              agents := Function.update s.agents i ⟨4, (s.agents i).plan⟩ })
    ∨ ((s.agents i).phase = 4 ∧
      s2 = { s with
              world := { s.world with schema :=
                { s.world.schema with dataRows := s.world.schema.dataRows + 1 } },
              agents := Function.update s.agents i ⟨5, (s.agents i).plan⟩ }) := by
  rw [sysStep] at h
  by_cases h0 : (s.agents i).phase = 0
  · rw [if_pos h0] at h
    cases hlo : s.lockOwner with
    | some j => rw [hlo] at h; exact absurd h (by simp)
    | none =>
      rw [hlo] at h
      simp only [Option.some.injEq] at h
      exact Or.inl ⟨h0, rfl, h.symm⟩
  rw [if_neg h0] at h
  by_cases h1 : (s.agents i).phase = 1
  · rw [if_pos h1] at h
    simp only [Option.some.injEq] at h
    exact Or.inr (Or.inl ⟨h1, h.symm⟩)
  rw [if_neg h1] at h
  by_cases h2 : (s.agents i).phase = 2
  · rw [if_pos h2] at h
    simp only [Option.some.injEq] at h
    exact Or.inr (Or.inr (Or.inl ⟨h2, h.symm⟩))
  rw [if_neg h2] at h
  by_cases h3 : (s.agents i).phase = 3
  · rw [if_pos h3] at h
    simp only [Option.some.injEq] at h
    exact Or.inr (Or.inr (Or.inr (Or.inl ⟨h3, h.symm⟩)))
  rw [if_neg h3] at h
  by_cases h4 : (s.agents i).phase = 4
  · rw [if_pos h4] at h
    simp only [Option.some.injEq] at h
    exact Or.inr (Or.inr (Or.inr (Or.inr ⟨h4, h.symm⟩)))
  · rw [if_neg h4] at h
    exact absurd h (by simp)

theorem sysStep_preserves_inv {N : Nat} (s : Sys N) (i : Fin N) (s2 : Sys N)
    (hinv : SysInv s) (hstep : sysStep s i = some s2) : SysInv s2 := by
  obtain ⟨inv1, inv2, inv3, inv4, inv5⟩ := hinv
  rcases sysStep_cases s i s2 hstep with
    ⟨h0, hlo, rfl⟩ | ⟨h1, rfl⟩ | ⟨h2, rfl⟩ | ⟨h3, rfl⟩ | ⟨h4, rfl⟩
  · -- acquire: phase 0, lock free
    refine ⟨?_, ?_, inv3, ?_, ?_⟩
    · intro j hj
      dsimp only at hj ⊢
      by_cases hji : j = i
      · subst hji; rfl
      · rw [Function.update_noteq hji] at hj
        exact absurd (inv1 j hj) (by rw [hlo]; simp)
    · intro j hj
      dsimp only at hj ⊢
      by_cases hji : j = i
      · subst hji
        rw [Function.update_same] at hj
        exact absurd hj (by norm_num)
      · rw [Function.update_noteq hji] at hj ⊢
        exact inv2 j hj
    · intro j hj
      dsimp only at hj ⊢
      by_cases hji : j = i
      · subst hji
        rw [Function.update_same] at hj
        exact absurd hj (by norm_num)
      · rw [Function.update_noteq hji] at hj
        exact inv4 j hj
    · have hd : doneCountF (Function.update s.agents i ⟨1, (s.agents i).plan⟩)
          = doneCountF s.agents :=
        doneCountF_update_ne _ _ _ (by norm_num) (by rw [h0]; norm_num)
      show s.world.schema.dataRows = _ + doneCountF _
      rw [hd]
      exact inv5
  · -- plan read: phase 1
    have hcriti : s.lockOwner = some i := inv1 i (by simp [inCrit, h1])
    refine ⟨?_, ?_, inv3, ?_, ?_⟩
    · intro j hj
      dsimp only at hj ⊢
      by_cases hji : j = i
      · subst hji; exact hcriti
      · rw [Function.update_noteq hji] at hj
        exact inv1 j hj
    · intro j hj
      dsimp only at hj ⊢
      by_cases hji : j = i
      · subst hji
        rw [Function.update_same]
      · rw [Function.update_noteq hji] at hj ⊢
        exact inv2 j hj
    · intro j hj
      dsimp only at hj ⊢
      by_cases hji : j = i
      · subst hji
        rw [Function.update_same] at hj
        exact absurd hj (by norm_num)
      · rw [Function.update_noteq hji] at hj
        exact inv4 j hj
    · have hd : doneCountF (Function.update s.agents i
          ⟨2, computePlan (s.world.tracking.map AppliedMigration.ID) sharedMigrations⟩)
          = doneCountF s.agents :=
        doneCountF_update_ne _ _ _ (by norm_num) (by rw [h1]; norm_num)
      show s.world.schema.dataRows = _ + doneCountF _
      rw [hd]
      exact inv5
  · -- execute plan: phase 2
    have hcriti : s.lockOwner = some i := inv1 i (by simp [inCrit, h2])
    have hplani := inv2 i h2
    have hmutex : ∀ j, j ≠ i → ¬ inCrit (s.agents j) := by
      intro j hji hj
      exact hji (Option.some.inj ((inv1 j hj).symm.trans hcriti))
    have hd : doneCountF (Function.update s.agents i ⟨3, (s.agents i).plan⟩)
        = doneCountF s.agents :=
      doneCountF_update_ne _ _ _ (by norm_num) (by rw [h2]; norm_num)
    rcases inv3 with hempty | hfull
    · -- first run: the whole shared set is pending
      have hplan : (s.agents i).plan = sharedMigrations := by
        rw [hplani, hempty, computePlan_shared_empty]
      have hrun := runMigrations_eq pgEnv (s.agents i).plan 0 s.world
      have htrack2 : (runMigrations pgEnv 0 (s.agents i).plan s.world).2.tracking.map
          AppliedMigration.ID = sharedIDs := by
        rw [hrun]
        show (s.world.tracking ++ newRows pgEnv 0 (s.agents i).plan s.world.schema).map
          AppliedMigration.ID = sharedIDs
        rw [List.map_append, hempty, hplan, newRows_shared_ids, List.nil_append]
      have hschema2 : (runMigrations pgEnv 0 (s.agents i).plan s.world).2.schema.dataRows
          = s.world.schema.dataRows + 1 := by
        rw [hrun]
        show (newSchema pgEnv 0 (s.agents i).plan s.world.schema).dataRows = _
        rw [hplan, newSchema_shared]
      refine ⟨?_, ?_, Or.inr htrack2, fun j _ => htrack2, ?_⟩
      · intro j hj
        dsimp only at hj ⊢
        by_cases hji : j = i
        · subst hji; exact hcriti
        · rw [Function.update_noteq hji] at hj
          exact inv1 j hj
      · intro j hj
        dsimp only at hj ⊢
        by_cases hji : j = i
        · subst hji
          rw [Function.update_same] at hj
          exact absurd hj (by norm_num)
        · rw [Function.update_noteq hji] at hj
          exact absurd (by simp [inCrit, hj]) (hmutex j hji)
      · show (runMigrations pgEnv 0 (s.agents i).plan s.world).2.schema.dataRows
          = _ + doneCountF _
        rw [hschema2, hd, htrack2, if_pos rfl]
        have hbefore : ¬ (s.world.tracking.map AppliedMigration.ID = sharedIDs) := by
          rw [hempty]; decide
        rw [inv5, if_neg hbefore]
        omega
    · -- re-run: nothing pending
      have hplan : (s.agents i).plan = [] := by
        rw [hplani, hfull, computePlan_shared_full]
      have hworld : (runMigrations pgEnv 0 (s.agents i).plan s.world).2 = s.world := by
        rw [hplan]; rfl
      refine ⟨?_, ?_, ?_, ?_, ?_⟩
      · intro j hj
        dsimp only at hj ⊢
        by_cases hji : j = i
        · subst hji; exact hcriti
        · rw [Function.update_noteq hji] at hj
          exact inv1 j hj
      · intro j hj
        dsimp only at hj ⊢
        by_cases hji : j = i
        · subst hji
          rw [Function.update_same] at hj
          exact absurd hj (by norm_num)
        · rw [Function.update_noteq hji] at hj
          exact absurd (by simp [inCrit, hj]) (hmutex j hji)
      · show (runMigrations pgEnv 0 (s.agents i).plan s.world).2.tracking.map
          AppliedMigration.ID = [] ∨ _
        rw [hworld]
        exact Or.inr hfull
      · intro j _
        show (runMigrations pgEnv 0 (s.agents i).plan s.world).2.tracking.map
          AppliedMigration.ID = sharedIDs
        rw [hworld]
        exact hfull
      · dsimp only
        rw [hworld, hd]
        exact inv5
  · -- release: phase 3
    have hcriti : s.lockOwner = some i := inv1 i (by simp [inCrit, h3])
    have hmutex : ∀ j, j ≠ i → ¬ inCrit (s.agents j) := by
      intro j hji hj
      exact hji (Option.some.inj ((inv1 j hj).symm.trans hcriti))
    refine ⟨?_, ?_, inv3, ?_, ?_⟩
    · intro j hj
      dsimp only at hj ⊢
      by_cases hji : j = i
      · subst hji
        rw [Function.update_same] at hj
        exact absurd hj (by norm_num [inCrit])
      · rw [Function.update_noteq hji] at hj
        exact absurd hj (hmutex j hji)
    · intro j hj
      dsimp only at hj ⊢
      by_cases hji : j = i
      · subst hji
        rw [Function.update_same] at hj
        exact absurd hj (by norm_num)
      · rw [Function.update_noteq hji] at hj
        exact absurd (by simp [inCrit, hj]) (hmutex j hji)
    · intro j hj
      dsimp only at hj ⊢
      by_cases hji : j = i
      · subst hji
        exact inv4 j (by omega)
      · rw [Function.update_noteq hji] at hj
        exact inv4 j hj
    · have hd : doneCountF (Function.update s.agents i ⟨4, (s.agents i).plan⟩)
          = doneCountF s.agents :=
        doneCountF_update_ne _ _ _ (by norm_num) (by rw [h3]; norm_num)
      show s.world.schema.dataRows = _ + doneCountF _
      rw [hd]
      exact inv5
  · -- follow-up insert: phase 4
    refine ⟨?_, ?_, inv3, ?_, ?_⟩
    · intro j hj
      dsimp only at hj ⊢
      by_cases hji : j = i
      · subst hji
        rw [Function.update_same] at hj
        exact absurd hj (by norm_num [inCrit])
      · rw [Function.update_noteq hji] at hj
        exact inv1 j hj
    · intro j hj
      dsimp only at hj ⊢
      by_cases hji : j = i
      · subst hji
        rw [Function.update_same] at hj
        exact absurd hj (by norm_num)
      · rw [Function.update_noteq hji] at hj ⊢
        exact inv2 j hj
    · intro j hj
      dsimp only at hj ⊢
      by_cases hji : j = i
      · subst hji
        exact inv4 j (by omega)
      · rw [Function.update_noteq hji] at hj
        exact inv4 j hj
    · have hd : doneCountF (Function.update s.agents i ⟨5, (s.agents i).plan⟩)
          = doneCountF s.agents + 1 :=
        doneCountF_update_to5 _ _ _ rfl (by rw [h4]; norm_num)
      show s.world.schema.dataRows + 1 = _ + doneCountF _
      rw [hd, ← Nat.add_assoc, inv5]

theorem execSched_preserves_inv {N : Nat} :
    ∀ (sched : List (Fin N)) (s s2 : Sys N),
      SysInv s → execSched s sched = some s2 → SysInv s2 := by
  intro sched
  induction sched with
  | nil =>
    intro s s2 hinv h
    rw [execSched] at h
    simp only [Option.some.injEq] at h
    rwa [← h]
  | cons i rest ih =>
    intro s s2 hinv h
    rw [execSched] at h
    cases hstep : sysStep s i with
    | none => rw [hstep] at h; exact absurd h (by simp)
    | some s3 =>
      rw [hstep] at h
      exact ih s3 s2 (sysStep_preserves_inv s i s3 hinv hstep) h

theorem initSys_inv (N : Nat) : SysInv (initSys N) := by
  refine ⟨?_, ?_, Or.inl rfl, ?_, ?_⟩
  · intro i hi
    exact absurd hi (by simp [initSys, inCrit])
  · intro i hi
    exact absurd hi (by simp [initSys])
  · intro i hi
    exact absurd hi (by simp [initSys])
  · show (0 : Nat) = _ + doneCountF _
    simp [doneCountF, initSys, initWorld, sharedIDs]

/-- C9: in the interleaving model of N concurrent callers sharing one
tracking table, lock and data table (each caller: acquire the lock, read
the pending plan, execute it, release, then one extra data-table
insert), the lock holder is the only caller inside the locked
plan-read/execution region at any reachable state; and when every one
of the N (N positive) callers has finished, the data table holds
exactly N + 1 rows — the shared seed insert ran exactly once. -/
theorem C9_concurrent_apply {N : Nat} (sched : List (Fin N)) (s2 : Sys N)
    (hex : execSched (initSys N) sched = some s2) :
    (∀ i j : Fin N, inCrit (s2.agents i) → inCrit (s2.agents j) → i = j)
    ∧ (0 < N → (∀ i, (s2.agents i).phase = 5) →
        s2.world.schema.dataRows = N + 1) := by
  obtain ⟨inv1, inv2, inv3, inv4, inv5⟩ :=
    execSched_preserves_inv sched (initSys N) s2 (initSys_inv N) hex
  constructor
  · intro i j hi hj
    exact Option.some.inj ((inv1 i hi).symm.trans (inv1 j hj))
  · intro hN hall
    have hfull : s2.world.tracking.map AppliedMigration.ID = sharedIDs :=
      inv4 ⟨0, hN⟩ (by have h5 := hall ⟨0, hN⟩; omega)
    have hdone : doneCountF s2.agents = N := by
      unfold doneCountF
      rw [Finset.filter_true_of_mem (fun i _ => hall i)]
      simp
    rw [inv5, hfull, if_pos rfl, hdone]
    omega

theorem c9_exec_one : execSched (initSys 1) [0, 0, 0, 0, 0] = some c9FinalSys := by
  have h1 : sysStep (initSys 1) 0 =
      some ⟨Function.update (fun _ => ⟨0, []⟩) 0 ⟨1, []⟩, some 0, initWorld⟩ := rfl
  have h2 : sysStep (⟨Function.update (fun _ => ⟨0, []⟩) 0 ⟨1, []⟩, some 0, initWorld⟩ : Sys 1) 0
      = some ⟨Function.update (Function.update (fun _ => ⟨0, []⟩) 0 ⟨1, []⟩) 0
          ⟨2, computePlan [] sharedMigrations⟩, some 0, initWorld⟩ := rfl
  rw [computePlan_shared_empty] at h2
  have h3 : sysStep (⟨Function.update (Function.update (fun _ => ⟨0, []⟩) 0 ⟨1, []⟩) 0
        ⟨2, sharedMigrations⟩, some 0, initWorld⟩ : Sys 1) 0
      = some ⟨Function.update (Function.update (Function.update (fun _ => ⟨0, []⟩) 0 ⟨1, []⟩) 0
          ⟨2, sharedMigrations⟩) 0 ⟨3, sharedMigrations⟩, some 0,
          (runMigrations pgEnv 0 sharedMigrations initWorld).2⟩ := rfl
  have h4 : sysStep (⟨Function.update (Function.update (Function.update (fun _ => ⟨0, []⟩) 0
        ⟨1, []⟩) 0 ⟨2, sharedMigrations⟩) 0 ⟨3, sharedMigrations⟩, some 0,
        (runMigrations pgEnv 0 sharedMigrations initWorld).2⟩ : Sys 1) 0
      = some ⟨Function.update (Function.update (Function.update (Function.update
          (fun _ => ⟨0, []⟩) 0 ⟨1, []⟩) 0 ⟨2, sharedMigrations⟩) 0 ⟨3, sharedMigrations⟩) 0
          ⟨4, sharedMigrations⟩, none,
          (runMigrations pgEnv 0 sharedMigrations initWorld).2⟩ := rfl
  have h5 : sysStep (⟨Function.update (Function.update (Function.update (Function.update
        (fun _ => ⟨0, []⟩) 0 ⟨1, []⟩) 0 ⟨2, sharedMigrations⟩) 0 ⟨3, sharedMigrations⟩) 0
        ⟨4, sharedMigrations⟩, none,
        (runMigrations pgEnv 0 sharedMigrations initWorld).2⟩ : Sys 1) 0
      = some ⟨Function.update (Function.update (Function.update (Function.update
          (Function.update (fun _ => ⟨0, []⟩) 0 ⟨1, []⟩) 0 ⟨2, sharedMigrations⟩) 0
          ⟨3, sharedMigrations⟩) 0 ⟨4, sharedMigrations⟩) 0 ⟨5, sharedMigrations⟩, none,
          c9FinalWorld⟩ := rfl
  simp only [execSched, h1, h2, h3, h4, h5]
  refine congrArg some ?_
  have hagents : (Function.update (Function.update (Function.update (Function.update
      (Function.update (fun _ => (⟨0, []⟩ : AgentState)) 0 ⟨1, []⟩) 0 ⟨2, sharedMigrations⟩) 0
      ⟨3, sharedMigrations⟩) 0 ⟨4, sharedMigrations⟩) 0 ⟨5, sharedMigrations⟩)
      = fun _ : Fin 1 => (⟨5, sharedMigrations⟩ : AgentState) := by
    funext j
    have hj : j = 0 := Subsingleton.elim j 0
    subst hj
    rfl
  rw [c9FinalSys, hagents]

/-- Witness for C9: one caller running start-to-finish leaves two rows in
the data table (the seed insert plus its own). -/
theorem C9_concurrent_apply_witness : c9FinalSys.world.schema.dataRows = 1 + 1 :=
  (C9_concurrent_apply [0, 0, 0, 0, 0] c9FinalSys c9_exec_one).2 (by decide)
    (fun i => by
      have hi : i = 0 := Subsingleton.elim i 0
      subst hi
      rfl)
